import Mathlib

/-!
Verification of the dump-to-fixture extraction and normalization pipeline
(scripts/generate_fixtures.py, scripts/validate_fixtures.py,
scripts/normalize_auth_users.py) against its specification.

Values are modelled by a `Json` type; Python strings are modelled over the
ASCII character range (Unicode digit classes and `\d` matching non-ASCII
decimal digits are outside the modelled character set, as fixture data is
ASCII).  File contents are Lean `String`s; reading/writing files is modelled
by returning the strings the scripts would write.
-/

/-- JSON values as produced by `json.load` / consumed by `json.dump`.
Floating-point numbers, which do not occur in the fixture data, are not
modelled (the parser rejects them). -/
inductive Json where
  | null
  | bool (b : Bool)
  | int (n : Int)
  | str (s : String)
  | arr (xs : List Json)
  | obj (kvs : List (String × Json))

/-- Python truthiness (`if val:`) of a JSON value: `None`, `False`, `0`,
`""`, `[]`, `{}` are falsy, everything else truthy. -/
def pyTruthy : Json → Bool
  | .null => false
  | .bool b => b
  | .int n => n != 0
  | .str s => s ≠ ""
  | .arr xs => !xs.isEmpty
  | .obj kvs => !kvs.isEmpty

/-- Python `==` on the JSON values the scripts compare.  Mirrors CPython:
booleans compare equal to the integers 0/1.  The scripts never compare two
containers for equality (they only compare scalars against container
elements or against string literals), so container/container comparison is
conservatively `false` here. -/
def pyEq : Json → Json → Bool
  | .null, .null => true
  | .bool a, .bool b => a == b
  | .bool a, .int n => (if a then (1 : Int) else 0) == n
  | .int n, .bool a => n == (if a then (1 : Int) else 0)
  | .int a, .int b => a == b
  | .str a, .str b => a == b
  | _, _ => false

/-- Membership `x in xs` for a Python list, via Python `==`. -/
def pyIn (x : Json) (xs : List Json) : Bool := xs.any (fun y => pyEq y x)

/-- `d.get(k)` on a dict modelled as an insertion-ordered association list
(duplicate keys cannot arise from `dict` itself; the later binding would
win, hence the reversed search). -/
def dGet (kvs : List (String × Json)) (k : String) : Option Json :=
  (kvs.reverse.find? (fun p => p.1 = k)).map (fun p => p.2)

/-- `d[k] = v` on a dict modelled as an insertion-ordered association list:
replaces the value in place if the key is present, else appends. -/
def dSet (kvs : List (String × Json)) (k : String) (v : Json) : List (String × Json) :=
  if kvs.any (fun p => p.1 = k) then
    kvs.map (fun p => if p.1 = k then (k, v) else p)
  else kvs ++ [(k, v)]

/-! ### Python string primitives (ASCII model) -/

/-- The whitespace characters Python `str.strip()` removes (ASCII ones). -/
def isSp (c : Char) : Bool := c = ' ' || c = '\t' || c = '\n' || c = '\r' || c = '\x0b' || c = '\x0c'

def isDg (c : Char) : Bool := '0' ≤ c && c ≤ '9'

/-- `str.strip()` on a character list. -/
def stripL (l : List Char) : List Char :=
  ((l.dropWhile isSp).reverse.dropWhile isSp).reverse

def pyStrip (s : String) : String := String.mk (stripL s.data)

/-- Character at index `i`, with a default that matches no character class
used by the scripts' patterns. -/
def chAt (l : List Char) (i : Nat) : Char := (l[i]?).getD '#'

/-- Numeric value of a digit list (all characters assumed decimal digits). -/
def digitsVal (l : List Char) : Nat :=
  l.foldl (fun acc c => acc * 10 + (c.toNat - '0'.toNat)) 0

/-- Python `int(s)` on a string: strips surrounding whitespace, accepts an
optional single sign, then requires a nonempty run of decimal digits;
anything else raises `ValueError` (modelled as `.error ()`).  Underscore
digit grouping, which never occurs in the dump data, is not modelled. -/
def pyInt (s : String) : Except Unit Int :=
  let t := stripL s.data
  match t with
  | [] => .error ()
  | c :: rest =>
    if c = '-' then
      if rest ≠ [] && rest.all isDg then .ok (-(digitsVal rest : Int)) else .error ()
    else if c = '+' then
      if rest ≠ [] && rest.all isDg then .ok ((digitsVal rest : Int)) else .error ()
    else
      if (c :: rest).all isDg then .ok ((digitsVal (c :: rest) : Int)) else .error ()

/-- Python `str.isdigit()` restricted to the ASCII fragment: true iff the
string is nonempty and every character is a decimal digit. -/
def pyIsdigit (s : String) : Bool := s.data ≠ [] && s.data.all isDg

/-- `str(val)` for the value kinds that can reach line 63 of
`generate_fixtures.py` (an `int` produced by the measurement coercion, or
the raw string). -/
def pyStrJ : Json → String
  | .int n => toString n
  | .str s => s
  | _ => ""

/-- `int(val)` applied to a value that is already an `int` or a `str`. -/
def pyIntJ : Json → Except Unit Int
  | .int n => .ok n
  | .str s => pyInt s
  | _ => .error ()

/-- Split a character list at every character satisfying `p` (empty pieces
kept, as Python's delimiter-argument `split` does). -/
def splitOnP (p : Char → Bool) : List Char → List (List Char)
  | [] => [[]]
  | c :: rest =>
    let r := splitOnP p rest
    if p c then [] :: r
    else
      match r with
      | h :: t => (c :: h) :: t
      | [] => [[c]]

/-- `str.split(sep)` for a one-character separator. -/
def pySplitChar (sep : Char) (s : String) : List String :=
  (splitOnP (fun c => c = sep) s.data).map String.mk

/-- `str.split()` with no argument: split on whitespace runs, dropping
empty pieces. -/
def pySplitWs (s : String) : List String :=
  ((splitOnP isSp s.data).map String.mk).filter (fun w => w ≠ "")

def pyStartsWith (s pre : String) : Bool := pre.data.isPrefixOf s.data

def pyEndsWith (s suf : String) : Bool := suf.data.reverse.isPrefixOf s.data.reverse

/-- `str.find(c)`: index of the first occurrence, `-1` if absent. -/
def pyFind (s : String) (c : Char) : Int :=
  match s.data.findIdx? (fun d => d = c) with
  | some i => (i : Int)
  | none => -1

/-- Python slice `s[i:j]` with negative-index wrapping and clamping. -/
def pySlice (s : String) (i j : Int) : String :=
  let n : Int := s.data.length
  let norm : Int → Nat := fun k => (if k < 0 then max (n + k) 0 else min k n).toNat
  String.mk ((s.data.take (norm j)).drop (norm i))

/-! ### generate_fixtures.py -/

/-- `TABLE_TO_FIXTURE` (generate_fixtures.py lines 7-20): legacy table name
to (model label, column-rename dict), with the dict's insertion order. -/
def tableToFixture : List (String × String × List (String × String)) :=
  [ ("_core_location", "core.location",
      [("id", "pk"), ("name", "name"), ("address", "address"), ("city", "city"), ("country", "country")]),
    ("_core_divisionpool", "games.divisionpool",
      [("id", "pk"), ("name", "name"), ("description", "description")]),
    ("_core_field", "games.field",
      [("id", "pk"), ("name", "name"), ("capacity", "capacity"), ("surface_type", "surface_type"), ("location_id", "location")]),
    ("_core_gameround", "games.gameround",
      [("id", "pk"), ("name", "name"), ("start_date", "start_date"), ("end_date", "end_date")]),
    ("_core_team", "games.team",
      [("id", "pk"), ("name", "name"), ("initial_seed", "initial_seed"), ("origin_id", "origin")]),
    ("_core_player", "games.player",
      [("id", "pk"), ("name", "name"), ("spirit_award_nominations", "spirit_award_nominations"), ("mvp_nominations", "mvp_nominations"), ("team_id", "team"), ("gender", "gender")]),
    ("_core_game", "games.game",
      [("id", "pk"), ("date", "start_time"), ("home_team_score", "team1_score"), ("away_team_score", "team2_score"), ("division_pool_id", "pool"), ("field_id", "field"), ("away_team_id", "team2"), ("home_team_id", "team1"), ("name", "name"), ("game_round_id", "game_round")]),
    ("_core_scoring", "games.scoring",
      [("id", "pk"), ("goals", "goals"), ("assists", "assists"), ("game_id", "game"), ("player_id", "player")]),
    ("_core_spiritscore", "games.spiritscore",
      [("id", "pk"), ("rules_knowledge", "rules_knowledge"), ("fouls_body_contact", "fouls_body_contact"), ("fair_mindedness", "fair_mindedness"), ("attitude", "attitude"), ("communication", "communication"), ("game_id", "game"), ("scored_by_id", "scored_by"), ("team_id", "team"), ("mvp_female_nomination_id", "mvp_female_nomination"), ("mvp_male_nomination_id", "mvp_male_nomination"), ("spirit_female_nomination_id", "spirit_female_nomination"), ("spirit_male_nomination_id", "spirit_male_nomination")]),
    ("_authman_user", "authman.user",
      [("id", "pk"), ("password", "password"), ("last_login", "last_login"), ("is_superuser", "is_superuser"), ("username", "username"), ("first_name", "first_name"), ("last_name", "last_name"), ("email", "email"), ("is_staff", "is_staff"), ("is_active", "is_active"), ("date_joined", "date_joined"), ("role", "role"), ("team_id", "team")]) ]

/-- The "obvious numeric" measurement fields (generate_fixtures.py line 58). -/
def measurementFields : List String :=
  ["capacity", "initial_seed", "team1_score", "team2_score", "goals", "assists"]

/-- The fixed relation-field names of generate_fixtures.py line 63. -/
def relationNames : List String :=
  ["team", "game", "player", "pool", "field", "team1", "team2", "scored_by",
   "mvp_female_nomination", "mvp_male_nomination", "spirit_female_nomination",
   "spirit_male_nomination"]

/-- Lines 57-63 of generate_fixtures.py for one non-id mapped column with a
non-empty raw value `val`: the `try int(val) except ValueError: pass`
measurement coercion, then the relation-field conditional expression whose
`int(val)` call is unguarded by any `try` (an `.error` models an uncaught
`ValueError` aborting the run). -/
def coerceFieldE (modelCol : String) (val : String) : Except Unit Json :=
  let v1 : Json :=
    if measurementFields.contains modelCol then
      match pyInt val with
      | .ok n => .int n
      | .error _ => .str val
    else .str val
  if (pyEndsWith modelCol "_id" || relationNames.contains modelCol) && pyIsdigit (pyStrJ v1) then
    (pyIntJ v1).map Json.int
  else .ok v1

/-- `d.get(k)` on the zipped row dict (string values). -/
def dGetS (kvs : List (String × String)) (k : String) : Option String :=
  (kvs.reverse.find? (fun p => p.1 = k)).map (fun p => p.2)

/-- Line 49 of generate_fixtures.py:
`pk = int(data.get('id')) if data.get('id') else None`.  The `int` call is
unguarded, so a truthy but non-numeric id raises (modelled as `.error`). -/
def computePk (idVal : Option String) : Except Unit (Option Int) :=
  match idVal with
  | some s => if s ≠ "" then (pyInt s).map some else .ok none
  | none => .ok none

/-- The loop of lines 51-63 with the `fields` dict built so far as the
accumulator. -/
def buildFieldsAux (data : List (String × String)) :
    List (String × String) → List (String × Json) → Except Unit (List (String × Json))
  | [], acc => .ok acc
  | p :: rest, acc =>
    if p.1 = "id" then buildFieldsAux data rest acc
    else
      match dGetS data p.1 with
      | none => buildFieldsAux data rest acc
      | some v =>
        if v = "" then buildFieldsAux data rest acc
        else
          match coerceFieldE p.2 v with
          | .ok j => buildFieldsAux data rest (dSet acc p.2 j)
          | .error e => .error e

/-- Lines 50-63: build the `fields` dict for one row, iterating the rename
dict in order, skipping `id` and empty/absent raw values. -/
def buildFields (colmap : List (String × String)) (data : List (String × String)) :
    Except Unit (List (String × Json)) :=
  buildFieldsAux data colmap []

/-- One emitted fixture record `{'model': ..., 'pk': ..., 'fields': ...}`. -/
structure Record where
  model : String
  pk : Option Int
  fields : List (String × Json)

/-- Lines 46-65 for a single raw data row: split on tabs, zip with the
column list into the row dict (`dict(zip(cols, values))`), compute the pk
(line 49, which may raise), then build the fields (lines 50-63). -/
def processRow (label : String) (colmap : List (String × String))
    (cols : List String) (r : String) : Except Unit Record :=
  match computePk (dGetS (cols.zip (pySplitChar '\t' r)) "id") with
  | .error e => .error e
  | .ok pk =>
    match buildFields colmap (cols.zip (pySplitChar '\t' r)) with
    | .error e => .error e
    | .ok fields => .ok ⟨label, pk, fields⟩

/-- A bulk-copy block as collected by the reader loop. -/
structure Block where
  table : String
  cols : List String
  rows : List String

/-- Lines 30-34: parse a `COPY public.` header line into table name and
column list.  `parts[1]` always exists for a line with this prefix (the
prefix itself contains the second word's first characters), so the indexing
cannot fail and is modelled with a default. -/
def mkBlock (line : String) : Block :=
  let header := pyStrip line
  let parts := pySplitWs header
  let table := ((pySplitChar '.' (parts.getD 1 "")).getLast?).getD ""
  let colsPart := pySlice header (pyFind header '(' + 1) (pyFind header ')')
  let cols := (pySplitChar ',' colsPart).map pyStrip
  ⟨table, cols, []⟩

/-- The reader loop of generate_fixtures.py lines 26-42 as a line-at-a-time
state machine; the state is the currently open block, if any.  Inside a
block every line is a data row until a line stripping to `\.`; end of input
with a block still open (`if not line: break`) simply ends the block, whose
collected rows are then processed like any other block's. -/
def scanBlocks : List String → Option Block → List Block
  | [], none => []
  | [], some b => [b]
  | l :: rest, none =>
    if pyStartsWith l "COPY public." then scanBlocks rest (some (mkBlock l))
    else scanBlocks rest none
  | l :: rest, some b =>
    if pyStrip l = "\\." then b :: scanBlocks rest none
    else scanBlocks rest (some { b with rows := b.rows ++ [l] })

/-- Lines 44-65 for one block: unmapped tables contribute nothing; mapped
tables map every collected row. -/
def processBlock (b : Block) : Except Unit (List Record) :=
  match tableToFixture.find? (fun t => t.1 = b.table) with
  | none => .ok []
  | some t => b.rows.mapM (processRow t.2.1 t.2.2 b.cols)

/-- The whole extraction run over the dump's lines (each list element one
line without its trailing newline; end of list is end of file).  Returns
the records in processing order; `.error` models an uncaught exception
aborting the run with a non-zero exit.  The per-label grouping and file
output of lines 69-77 reorder but never add, drop or alter records, so the
flat list carries all record-level content. -/
def runExtraction (lines : List String) : Except Unit (List Record) :=
  ((scanBlocks lines none).mapM processBlock).map List.flatten

/-! ### validate_fixtures.py -/

/-- Shared shape of the two datetime patterns of validate_fixtures.py
lines 44 and 49: digits and punctuation at fixed positions, with `sep` the
required separator character at index 10.  (`\d` is modelled over ASCII
decimal digits.) -/
def dtShape (l : List Char) (sep : Char) : Bool :=
  isDg (chAt l 0) && isDg (chAt l 1) && isDg (chAt l 2) && isDg (chAt l 3) &&
  (chAt l 4 == '-') && isDg (chAt l 5) && isDg (chAt l 6) && (chAt l 7 == '-') &&
  isDg (chAt l 8) && isDg (chAt l 9) && (chAt l 10 == sep) &&
  isDg (chAt l 11) && isDg (chAt l 12) && (chAt l 13 == ':') &&
  isDg (chAt l 14) && isDg (chAt l 15) && (chAt l 16 == ':') &&
  isDg (chAt l 17) && isDg (chAt l 18)

/-- `re.match(r'\d{4}-\d{2}-\d{2} \d{2}:\d{2}:\d{2}', v)` — an anchored
prefix match: the first 19 characters exist and have the naive-timestamp
shape with a space separator. -/
def matchNaive (s : String) : Bool :=
  decide (19 ≤ s.data.length) && dtShape s.data ' '

/-- `re.match(r'\d{4}-\d{2}-\d{2}T\d{2}:\d{2}:\d{2}$', v)` — anchored at
both ends: the whole string is exactly the 19-character `T`-separated
form. -/
def matchTexact (s : String) : Bool :=
  decide (s.data.length = 19) && dtShape s.data 'T'

/-- `v.replace(' ', 'T')`: every space becomes `T`. -/
def spT (c : Char) : Char := if c = ' ' then 'T' else c

def replTZ (s : String) : String := String.mk (s.data.map spT)

/-- Append one character (the `+ 'Z'` suffixing). -/
def pushZ (s : String) : String := String.mk (s.data ++ ['Z'])

/-- The boolean-semantic field names of validate_fixtures.py line 54. -/
def boolFields : List String := ["is_superuser", "is_staff", "is_active"]

/-- Lines 41-58 of validate_fixtures.py for a single `(k, v)` entry of a
record's `fields` dict: the datetime elif-chain (string values only, and
only nonempty ones), then the independent boolean normalization, which
tests the original loop value `v` and overwrites `fields[k]` when it fires.
Returns the final stored value and whether `modified` was set for this
entry. -/
def normDt : Json → Json × Bool
  | .str s =>
    if s ≠ "" then
      if matchNaive s then (.str (pushZ (replTZ s)), true)
      else if matchTexact s then (.str (pushZ s), true)
      else (.str s, false)
    else (.str s, false)
  | v => (v, false)

def normField (k : String) (v : Json) : Json × Bool :=
  match v with
  | .str s =>
    if boolFields.contains k then
      if s = "1" then (.bool true, true)
      else if s = "0" then (.bool false, true)
      else normDt (.str s)
    else normDt (.str s)
  | v => (v, false)

/-- The field loop over `list(fields.items())`, accumulating the per-file
`modified` flag. -/
def normFields : List (String × Json) → List (String × Json) × Bool
  | [] => ([], false)
  | (k, v) :: rest =>
    let f := normField k v
    let r := normFields rest
    ((k, f.1) :: r.1, f.2 || r.2)

/-- Lines 30-58 for one object of the fixture array.  A falsy/missing
`model` label skips the object (`continue`); the `apps.get_model` lookup
only prints a warning and is diagnostics-only, so it is elided here.  A
missing `fields` key yields the fresh empty dict default `{}`, whose
mutations are lost, leaving the object unchanged; a non-dict `fields` or a
non-dict object would raise in Python and cannot occur in fixture files, so
those shapes are left unchanged here. -/
def normObj (o : Json) : Json × Bool :=
  match o with
  | .obj kvs =>
    match dGet kvs "model" with
    | some m =>
      if pyTruthy m then
        match dGet kvs "fields" with
        | some (.obj fs) =>
          let r := normFields fs
          (.obj (dSet kvs "fields" (.obj r.1)), r.2)
        | _ => (.obj kvs, false)
      else (.obj kvs, false)
    | none => (.obj kvs, false)
  | o => (o, false)

/-- The object loop of validate_file, with the accumulated `modified`. -/
def normData : List Json → List Json × Bool
  | [] => ([], false)
  | o :: rest =>
    let f := normObj o
    let r := normData rest
    (f.1 :: r.1, f.2 || r.2)

/-! ### json.dumps / json.load

The two repair scripts read fixture files with `json.load` and write with
`json.dumps(..., indent=2, ensure_ascii=False)`.  Both are modelled here:
the serializer exactly (for the value kinds of `Json`), the parser as a
fueled recursive-descent parser over the same grammar (floating-point
numbers, `NaN`/`Infinity` and `\u` surrogate pairs never occur in the
fixture data and are not modelled). -/

def hexDig (n : Nat) : Char :=
  if n < 10 then Char.ofNat ('0'.toNat + n) else Char.ofNat ('a'.toNat + n - 10)

/-- One character of a JSON string as `json.dumps` emits it with
`ensure_ascii=False`: the two-character escapes for quote, backslash and
the common control characters, `\u00xx` for other control characters, and
everything else verbatim. -/
def escC (c : Char) : List Char :=
  if c = '"' then ['\\', '"']
  else if c = '\\' then ['\\', '\\']
  else if c = '\n' then ['\\', 'n']
  else if c = '\t' then ['\\', 't']
  else if c = '\r' then ['\\', 'r']
  else if c = '\x08' then ['\\', 'b']
  else if c = '\x0c' then ['\\', 'f']
  else if c.toNat < 0x20 then ['\\', 'u', '0', '0', hexDig (c.toNat / 16), hexDig (c.toNat % 16)]
  else [c]

def qStr (s : String) : List Char := '"' :: (s.data.map escC).flatten ++ ['"']

mutual

/-- `json.dumps` body at indentation depth `lvl` (in spaces; `indent=2`
adds 2 per nesting level). -/
def dumpJ : Nat → Json → List Char
  | _, .null => ['n', 'u', 'l', 'l']
  | _, .bool true => ['t', 'r', 'u', 'e']
  | _, .bool false => ['f', 'a', 'l', 's', 'e']
  | _, .int n => (toString n).data
  | _, .str s => qStr s
  | lvl, .arr xs =>
    match xs with
    | [] => ['[', ']']
    | x :: rest =>
      '[' :: '\n' :: dumpItems (lvl + 2) (x :: rest) ++ '\n' :: List.replicate lvl ' ' ++ [']']
  | lvl, .obj kvs =>
    match kvs with
    | [] => ['\x7b', '\x7d']
    | p :: rest =>
      '\x7b' :: '\n' :: dumpKVs (lvl + 2) (p :: rest) ++ '\n' :: List.replicate lvl ' ' ++ ['\x7d']

def dumpItems : Nat → List Json → List Char
  | _, [] => []
  | lvl, [x] => List.replicate lvl ' ' ++ dumpJ lvl x
  | lvl, x :: y :: xs =>
    List.replicate lvl ' ' ++ dumpJ lvl x ++ [',', '\n'] ++ dumpItems lvl (y :: xs)

def dumpKVs : Nat → List (String × Json) → List Char
  | _, [] => []
  | lvl, [p] => List.replicate lvl ' ' ++ qStr p.1 ++ ':' :: ' ' :: dumpJ lvl p.2
  | lvl, p :: q :: xs =>
    List.replicate lvl ' ' ++ qStr p.1 ++ ':' :: ' ' :: dumpJ lvl p.2 ++ [',', '\n'] ++ dumpKVs lvl (q :: xs)

end

/-- `json.dumps(x, indent=2, ensure_ascii=False)`. -/
def dumpsRaw (j : Json) : String := String.mk (dumpJ 0 j)

def isJsonWs (c : Char) : Bool := c = ' ' || c = '\t' || c = '\n' || c = '\r'

def skipWs (l : List Char) : List Char := l.dropWhile isJsonWs

def isHex (c : Char) : Bool := isDg c || ('a' ≤ c && c ≤ 'f') || ('A' ≤ c && c ≤ 'F')

def hexVal (c : Char) : Nat :=
  if isDg c then c.toNat - '0'.toNat
  else if 'a' ≤ c && c ≤ 'f' then c.toNat - 'a'.toNat + 10
  else c.toNat - 'A'.toNat + 10

/-- An unsigned integer literal; a following `.`, `e` or `E` would start a
float, which is out of the modelled grammar. -/
def parseNat (l : List Char) : Option (Nat × List Char) :=
  let ds := l.takeWhile isDg
  let rest := l.dropWhile isDg
  if ds = [] then none
  else
    match rest with
    | c :: _ => if c = '.' || c = 'e' || c = 'E' then none else some (digitsVal ds, rest)
    | [] => some (digitsVal ds, rest)

mutual

/-- One JSON value (leading whitespace allowed), returning the remainder. -/
def parseVal : Nat → List Char → Option (Json × List Char)
  | 0, _ => none
  | fuel + 1, l =>
    match skipWs l with
    | '\x7b' :: rest =>
      (match skipWs rest with
       | '\x7d' :: r2 => some (.obj [], r2)
       | l2 => (parseObjMore fuel l2).map (fun p => (.obj p.1, p.2)))
    | '[' :: rest =>
      (match skipWs rest with
       | ']' :: r2 => some (.arr [], r2)
       | l2 => (parseArrMore fuel l2).map (fun p => (.arr p.1, p.2)))
    | '"' :: rest => (parseStrBody fuel rest).map (fun p => (.str (String.mk p.1), p.2))
    | 't' :: 'r' :: 'u' :: 'e' :: rest => some (.bool true, rest)
    | 'f' :: 'a' :: 'l' :: 's' :: 'e' :: rest => some (.bool false, rest)
    | 'n' :: 'u' :: 'l' :: 'l' :: rest => some (.null, rest)
    | '-' :: rest =>
      (match parseNat rest with
       | some (n, r) => some (.int (-(n : Int)), r)
       | none => none)
    | l2 =>
      (match parseNat l2 with
       | some (n, r) => some (.int (n : Int), r)
       | none => none)

/-- One or more comma-separated array items followed by `]`. -/
def parseArrMore : Nat → List Char → Option (List Json × List Char)
  | 0, _ => none
  | fuel + 1, l =>
    match parseVal fuel l with
    | none => none
    | some (v, r) =>
      match skipWs r with
      | ',' :: r2 => (parseArrMore fuel r2).map (fun p => (v :: p.1, p.2))
      | ']' :: r2 => some ([v], r2)
      | _ => none

/-- One or more `"key": value` members followed by the closing brace. -/
def parseObjMore : Nat → List Char → Option (List (String × Json) × List Char)
  | 0, _ => none
  | fuel + 1, l =>
    match skipWs l with
    | '"' :: rest =>
      (match parseStrBody fuel rest with
       | none => none
       | some (k, r) =>
         match skipWs r with
         | ':' :: r2 =>
           (match parseVal fuel r2 with
            | none => none
            | some (v, r3) =>
              match skipWs r3 with
              | ',' :: r4 => (parseObjMore fuel r4).map (fun p => ((String.mk k, v) :: p.1, p.2))
              | '\x7d' :: r4 => some ([(String.mk k, v)], r4)
              | _ => none)
         | _ => none)
    | _ => none

/-- The body of a JSON string after the opening quote, up to and including
the closing quote. -/
def parseStrBody : Nat → List Char → Option (List Char × List Char)
  | 0, _ => none
  | fuel + 1, l =>
    match l with
    | [] => none
    | c :: rest =>
      if c = '"' then some ([], rest)
      else if c = '\\' then
        match rest with
        | [] => none
        | e :: rest2 =>
          let dec : Option (Char × List Char) :=
            if e = '"' then some ('"', rest2)
            else if e = '\\' then some ('\\', rest2)
            else if e = '/' then some ('/', rest2)
            else if e = 'n' then some ('\n', rest2)
            else if e = 't' then some ('\t', rest2)
            else if e = 'r' then some ('\r', rest2)
            else if e = 'b' then some ('\x08', rest2)
            else if e = 'f' then some ('\x0c', rest2)
            else if e = 'u' then
              match rest2 with
              | a :: b :: c2 :: d :: rest3 =>
                if isHex a && isHex b && isHex c2 && isHex d then
                  some (Char.ofNat (hexVal a * 4096 + hexVal b * 256 + hexVal c2 * 16 + hexVal d), rest3)
                else none
              | _ => none
            else none
          match dec with
          | some (ch, r) => (parseStrBody fuel r).map (fun p => (ch :: p.1, p.2))
          | none => none
      else (parseStrBody fuel rest).map (fun p => (c :: p.1, p.2))

end

/-- `json.loads` / `json.load`: a single value with surrounding whitespace;
trailing garbage is a parse error.  The fuel strictly exceeds the input
length, and every recursive step consumes at least one character, so the
fuel never runs out on inputs it accepts. -/
def loads (s : String) : Option Json :=
  match parseVal (s.data.length + 16) s.data with
  | some (j, rest) => if skipWs rest = [] then some j else none
  | none => none

/-! ### File-level behavior of validate_fixtures.validate_file -/

/-- What one `validate_file` invocation does to a file: the transformed
data, the `modified` flag, and the contents written to the `.bak` path and
back to the file itself (`none` = that write does not happen). -/
structure ValidateResult where
  newData : List Json
  modified : Bool
  backup : Option String
  written : Option String

/-- validate_fixtures.py lines 21-63 on a file with the given contents.  A
JSON parse error is caught (lines 23-27), reported, and causes no write;
the backup (line 60) is written from `path.read_text()`, i.e. from the
still-unmodified on-disk contents; line 61 then rewrites the file with
`json.dumps(data, indent=2, ensure_ascii=False)`.  A parsed top-level
value that is not an array is not fixture-shaped (iterating a dict would
yield strings and line 31 would raise); it is mapped to `none` here. -/
def runValidateFile (contents : String) : Option ValidateResult :=
  match loads contents with
  | some (.arr data) =>
    let r := normData data
    if r.2 then some ⟨r.1, true, some contents, some (dumpsRaw (.arr r.1))⟩
    else some ⟨r.1, false, none, none⟩
  | _ => none

/-! ### normalize_auth_users.py -/

/-- Lines 18-20: one boolean-name step — if the key is present and its
value is a string, replace it by `True` iff the string is one of
`'1'/'true'/'True'`, else `False`. -/
def fixBoolStep (fs : List (String × Json)) (b : String) : List (String × Json) :=
  match dGet fs b with
  | some (.str s) => dSet fs b (.bool (s = "1" || s = "true" || s = "True"))
  | _ => fs

def fixBools (fs : List (String × Json)) : List (String × Json) :=
  ["is_superuser", "is_staff", "is_active"].foldl fixBoolStep fs

/-- Lines 22-31: one datetime-field step, with the two membership tests on
`val` / `new` and the slice `[11:]` exactly as written. -/
def fixDtStep (fs : List (String × Json)) (d : String) : List (String × Json) :=
  match dGet fs d with
  | some (.str s) =>
    if s ≠ "" then
      if !(s.data.contains 'T')
          || (!(s.data.contains '+') && !(s.data.contains 'Z') && !((s.data.drop 11).contains '-')) then
        let nw := replTZ s
        let nw2 :=
          if !(nw.data.contains 'Z') && (!(nw.data.contains '+') && !((nw.data.drop 11).contains '-')) then
            pushZ nw
          else nw
        dSet fs d (.str nw2)
      else fs
    else fs
  | _ => fs

def fixDts (fs : List (String × Json)) : List (String × Json) :=
  ["last_login", "date_joined"].foldl fixDtStep fs

/-- Line 33: `groups = fields.get('groups') or []` — the stored list when
truthy, a fresh empty list otherwise (a truthy non-list value would raise
on the later `in` test and cannot occur in fixture data). -/
def groupsListOf (fs : List (String × Json)) : List Json :=
  match dGet fs "groups" with
  | some (.arr xs) => xs
  | _ => []

/-- Lines 34-36: if `is_superuser` is truthy, ensure sentinel id 1 is in
the list (append only when absent). -/
def deriveG1 (fs : List (String × Json)) (g0 : List Json) : List Json :=
  if pyTruthy ((dGet fs "is_superuser").getD .null) then
    if pyIn (.int 1) g0 then g0 else g0 ++ [.int 1]
  else g0

/-- Lines 37-39: if `role == 'team_manager'` and sentinel id 2 absent,
append it. -/
def deriveG2 (fs : List (String × Json)) (g1 : List Json) : List Json :=
  if pyEq ((dGet fs "role").getD .null) (.str "team_manager") && !(pyIn (.int 2) g1) then
    g1 ++ [.int 2]
  else g1

/-- Lines 33-41: derive the `groups` membership list from the (by now
normalized) `is_superuser` flag and the `role` value, with the
append-if-absent guards; store it back only when nonempty (line 40). -/
def fixGroups (fs : List (String × Json)) : List (String × Json) :=
  let g2 := deriveG2 fs (deriveG1 fs (groupsListOf fs))
  if !g2.isEmpty then dSet fs "groups" (.arr g2) else fs

/-- The whole per-record body of the fixer's loop, in source order:
boolean normalization, then datetime normalization, then group
derivation. -/
def fixFields (fs : List (String × Json)) : List (String × Json) :=
  fixGroups (fixDts (fixBools fs))

/-- Lines 13-41 for one element of the array: records whose `model` is not
`'authman.user'` are skipped; `obj['fields']` is accessed unconditionally
(a missing or non-dict `fields` would raise `KeyError`/`AttributeError`;
such records do not occur in fixture files and are left unchanged here). -/
def fixObj (o : Json) : Json :=
  match o with
  | .obj kvs =>
    if pyEq ((dGet kvs "model").getD .null) (.str "authman.user") then
      match dGet kvs "fields" with
      | some (.obj fs) => .obj (dSet kvs "fields" (.obj (fixFields fs)))
      | _ => .obj kvs
    else .obj kvs
  | o => o

/-- The loop over the parsed array (a non-array top level would raise when
iterated and cannot occur for fixture files). -/
def fixData : Json → Json
  | .arr xs => .arr (xs.map fixObj)
  | j => j

/-- normalize_auth_users.py end to end on the input file's contents:
`json.load`, then the backup write
`BAK.write_text(json.dumps(data, indent=2, ensure_ascii=False))` — a
re-serialization of the parsed value, taken before any mutation — then the
in-place rewrite with the same serializer after the loop.  Returns
`(backup contents, new file contents)`; `none` models the uncaught
`json.JSONDecodeError` on unparseable input. -/
def runFixer (contents : String) : Option (String × String) :=
  (loads contents).map (fun d => (dumpsRaw d, dumpsRaw (fixData d)))

/-! ### Helper lemmas: characters, digits, `int()` -/

theorem isDg_not_isSp {c : Char} (h : isDg c = true) : isSp c = false := by
  by_contra hne
  rw [Bool.not_eq_false] at hne
  simp only [isSp, Bool.or_eq_true, decide_eq_true_eq] at hne
  rcases hne with ((((h1 | h1) | h1) | h1) | h1) | h1 <;> subst h1 <;>
    exact Bool.noConfusion h

theorem dropWhile_eq_self_of_none {p : Char → Bool} {l : List Char}
    (h : ∀ c ∈ l, p c = false) : l.dropWhile p = l := by
  cases l with
  | nil => rfl
  | cons a t =>
    rw [List.dropWhile_cons]
    simp [h a (by simp)]

theorem stripL_of_digits {l : List Char} (h : ∀ c ∈ l, isDg c = true) : stripL l = l := by
  unfold stripL
  rw [dropWhile_eq_self_of_none (fun c hc => isDg_not_isSp (h c hc))]
  rw [dropWhile_eq_self_of_none (fun c hc => isDg_not_isSp (h c (List.mem_reverse.mp hc)))]
  exact List.reverse_reverse l

theorem pyInt_of_isdigit {s : String} (h : pyIsdigit s = true) :
    pyInt s = .ok (digitsVal s.data) := by
  simp only [pyIsdigit, Bool.and_eq_true, decide_eq_true_eq, List.all_eq_true] at h
  obtain ⟨hne, hall⟩ := h
  unfold pyInt
  rw [stripL_of_digits hall]
  cases hd : s.data with
  | nil => exact absurd hd hne
  | cons c rest =>
    have hc : isDg c = true := hall c (by rw [hd]; simp)
    have hcm : c ≠ '-' := by rintro rfl; exact absurd hc (by decide)
    have hcp : c ≠ '+' := by rintro rfl; exact absurd hc (by decide)
    have hdall : (c :: rest).all isDg = true := by
      rw [List.all_eq_true]
      intro x hx
      exact hall x (by rw [hd]; exact hx)
    show (if c = '-' then
        if (decide (rest ≠ []) && rest.all isDg) = true then Except.ok (-(digitsVal rest : Int)) else Except.error ()
      else
        if c = '+' then
          if (decide (rest ≠ []) && rest.all isDg) = true then Except.ok ((digitsVal rest : Int)) else Except.error ()
        else if (c :: rest).all isDg = true then Except.ok ((digitsVal (c :: rest) : Int)) else Except.error ()) =
      Except.ok ((digitsVal (c :: rest) : Int))
    rw [if_neg hcm, if_neg hcp, if_pos hdall]

theorem pyIsdigit_of_pyInt_err {s : String} (h : pyInt s = .error ()) :
    pyIsdigit s = false := by
  by_contra hne
  rw [Bool.not_eq_false] at hne
  rw [pyInt_of_isdigit hne] at h
  exact Except.noConfusion h

/-! ### Helper lemmas: association-list dicts -/

theorem dGet_dSet_self (kvs : List (String × Json)) (k : String) (v : Json) :
    dGet (dSet kvs k v) k = some v := by
  unfold dGet dSet
  by_cases hany : kvs.any (fun p => p.1 = k) = true
  · rw [if_pos hany]
    rw [← List.any_reverse] at hany
    rw [← List.map_reverse]
    generalize kvs.reverse = l at hany
    induction l with
    | nil => simp at hany
    | cons p t ih =>
      by_cases hp : p.1 = k
      · simp [List.find?_cons, hp]
      · replace hany : t.any (fun p => decide (p.1 = k)) = true := by
          simpa [hp] using hany
        simpa [List.find?_cons, hp] using ih hany
  · rw [if_neg hany]
    rw [List.reverse_append]
    simp [List.find?_cons]

theorem dGet_dSet_ne (kvs : List (String × Json)) (k k' : String) (v : Json)
    (h : k' ≠ k) : dGet (dSet kvs k v) k' = dGet kvs k' := by
  have hkk : ¬(k = k') := fun he => h he.symm
  unfold dGet dSet
  by_cases hany : kvs.any (fun p => p.1 = k) = true
  · rw [if_pos hany]
    rw [← List.map_reverse]
    generalize kvs.reverse = l
    induction l with
    | nil => rfl
    | cons p t ih =>
      by_cases hp : p.1 = k
      · have hfp : (if p.1 = k then (k, v) else p) = (k, v) := if_pos hp
        have hpk' : ¬(p.1 = k') := by rw [hp]; exact hkk
        rw [List.map_cons, hfp, List.find?_cons, List.find?_cons]
        simpa [hkk, hpk'] using ih
      · have hfp : (if p.1 = k then (k, v) else p) = p := if_neg hp
        rw [List.map_cons, hfp, List.find?_cons, List.find?_cons]
        by_cases hq : p.1 = k'
        · simp [hq]
        · simpa [hq] using ih
  · rw [if_neg hany]
    rw [List.reverse_append]
    simp [List.find?_cons, hkk]

theorem mem_dSet {kvs : List (String × Json)} {k : String} {v : Json} {kv : String × Json}
    (h : kv ∈ dSet kvs k v) : kv = (k, v) ∨ kv ∈ kvs := by
  unfold dSet at h
  by_cases hany : kvs.any (fun p => p.1 = k) = true
  · rw [if_pos hany] at h
    obtain ⟨p, hp, he⟩ := List.mem_map.mp h
    by_cases hpk : p.1 = k
    · rw [if_pos hpk] at he
      exact Or.inl he.symm
    · rw [if_neg hpk] at he
      exact Or.inr (he ▸ hp)
  · rw [if_neg hany] at h
    rcases List.mem_append.mp h with hin | hin
    · exact Or.inr hin
    · exact Or.inl (List.mem_singleton.mp hin)

theorem dSet_any (kvs : List (String × Json)) (k : String) (v : Json) :
    (dSet kvs k v).any (fun p => p.1 = k) = true := by
  unfold dSet
  by_cases hany : kvs.any (fun p => p.1 = k) = true
  · rw [if_pos hany]
    rw [List.any_eq_true] at hany ⊢
    obtain ⟨p, hp, hpk⟩ := hany
    refine ⟨(k, v), List.mem_map.mpr ⟨p, hp, ?_⟩, by simp⟩
    rw [if_pos (by simpa using hpk)]
  · rw [if_neg hany]
    rw [List.any_eq_true]
    exact ⟨(k, v), by simp, by simp⟩

theorem dSet_dSet (kvs : List (String × Json)) (k : String) (v w : Json) :
    dSet (dSet kvs k v) k w = dSet kvs k w := by
  by_cases hany : kvs.any (fun p => p.1 = k) = true
  · have h2 := dSet_any kvs k v
    unfold dSet
    unfold dSet at h2
    rw [if_pos hany] at h2
    rw [if_pos hany, if_pos h2, List.map_map, if_pos hany]
    apply List.map_congr_left
    intro p _
    by_cases hp : p.1 = k
    · simp [Function.comp, hp]
    · simp [Function.comp, hp]
  · have h2 := dSet_any kvs k v
    unfold dSet
    unfold dSet at h2
    rw [if_neg hany] at h2
    rw [if_neg hany, if_pos h2, if_neg hany, List.map_append]
    have hall : ∀ p ∈ kvs, ¬(p.1 = k) := by
      intro p hp he
      exact hany (List.any_eq_true.mpr ⟨p, hp, by simp [he]⟩)
    congr 1
    · conv_rhs => rw [← List.map_id kvs]
      apply List.map_congr_left
      intro p hp
      simp [hall p hp]
    · simp

/-! ### Helper lemmas: the datetime patterns and their fixed point -/

theorem chAt_lt {l : List Char} {i : Nat} (h : i < l.length) : chAt l i = l[i] := by
  unfold chAt
  rw [List.getElem?_eq_getElem h]
  rfl

theorem chAt_append_left {l m : List Char} {i : Nat} (h : i < l.length) :
    chAt (l ++ m) i = chAt l i := by
  unfold chAt
  rw [List.getElem?_append, if_pos h]

theorem chAt_map_spT {l : List Char} {i : Nat} (h : i < l.length) :
    chAt (l.map spT) i = spT (chAt l i) := by
  unfold chAt
  rw [List.getElem?_map, List.getElem?_eq_getElem h]
  rfl

theorem dtShape_at10 {l : List Char} {sep : Char} (h : dtShape l sep = true) :
    chAt l 10 = sep := by
  unfold dtShape at h
  repeat rw [Bool.and_eq_true] at h
  exact beq_iff_eq.mp h.1.1.1.1.1.1.1.1.2

theorem matchNaive_elim {s : String} (h : matchNaive s = true) :
    19 ≤ s.data.length ∧ chAt s.data 10 = ' ' := by
  unfold matchNaive at h
  rw [Bool.and_eq_true] at h
  exact ⟨of_decide_eq_true h.1, dtShape_at10 h.2⟩

theorem matchTexact_elim {s : String} (h : matchTexact s = true) :
    s.data.length = 19 ∧ chAt s.data 10 = 'T' := by
  unfold matchTexact at h
  rw [Bool.and_eq_true] at h
  exact ⟨of_decide_eq_true h.1, dtShape_at10 h.2⟩

theorem dtShape_false_of_at10 {l : List Char} {sep : Char} (h : chAt l 10 ≠ sep) :
    dtShape l sep = false := by
  unfold dtShape
  rw [show (chAt l 10 == sep) = false from beq_eq_false_iff_ne.mpr h]
  simp

/-- The canonical form produced from a naive timestamp is matched by
neither pattern on a later pass, and is at least 20 characters long. -/
theorem canon_naive {s : String} (h : matchNaive s = true) :
    matchNaive (pushZ (replTZ s)) = false ∧ matchTexact (pushZ (replTZ s)) = false ∧
      20 ≤ (pushZ (replTZ s)).data.length := by
  obtain ⟨hlen, h10⟩ := matchNaive_elim h
  have hdata : (pushZ (replTZ s)).data = s.data.map spT ++ ['Z'] := rfl
  have hmlen : 10 < (s.data.map spT).length := by rw [List.length_map]; omega
  have h10' : chAt (pushZ (replTZ s)).data 10 = 'T' := by
    rw [hdata, chAt_append_left hmlen, chAt_map_spT (by omega), h10]
    rfl
  have hlen' : (pushZ (replTZ s)).data.length = s.data.length + 1 := by
    rw [hdata, List.length_append, List.length_map]
    rfl
  refine ⟨?_, ?_, by omega⟩
  · unfold matchNaive
    rw [dtShape_false_of_at10 (by rw [h10']; decide), Bool.and_false]
  · unfold matchTexact
    rw [decide_eq_false (by omega : ¬((pushZ (replTZ s)).data.length = 19))]
    rfl

/-- Likewise for the form produced by appending `Z` to the T-separated
19-character exact form. -/
theorem canon_texact {s : String} (h : matchTexact s = true) :
    matchNaive (pushZ s) = false ∧ matchTexact (pushZ s) = false ∧
      20 ≤ (pushZ s).data.length := by
  obtain ⟨hlen, h10⟩ := matchTexact_elim h
  have hdata : (pushZ s).data = s.data ++ ['Z'] := rfl
  have h10' : chAt (pushZ s).data 10 = 'T' := by
    rw [hdata, chAt_append_left (by omega), h10]
  have hlen' : (pushZ s).data.length = s.data.length + 1 := by
    rw [hdata, List.length_append]
    rfl
  refine ⟨?_, ?_, by omega⟩
  · unfold matchNaive
    rw [dtShape_false_of_at10 (by rw [h10']; decide), Bool.and_false]
  · unfold matchTexact
    rw [decide_eq_false (by omega : ¬((pushZ s).data.length = 19))]
    rfl

theorem str_ne_lits {c : String} (h : 2 ≤ c.data.length) :
    c ≠ "1" ∧ c ≠ "0" ∧ c ≠ "" := by
  refine ⟨?_, ?_, ?_⟩ <;> intro he <;> subst he <;> exact absurd h (by decide)

theorem normField_str (k s : String) : normField k (.str s) =
    if boolFields.contains k then
      if s = "1" then (.bool true, true)
      else if s = "0" then (.bool false, true)
      else normDt (.str s)
    else normDt (.str s) := rfl

theorem normDt_str (s : String) : normDt (.str s) =
    if s ≠ "" then
      if matchNaive s then (.str (pushZ (replTZ s)), true)
      else if matchTexact s then (.str (pushZ s), true)
      else (.str s, false)
    else (.str s, false) := rfl

/-- A second application of `normDt` to a value it produced changes
nothing. -/
theorem normDt_idem (v : Json) : normDt (normDt v).1 = ((normDt v).1, false) := by
  cases v with
  | null => rfl
  | bool b => rfl
  | int n => rfl
  | arr xs => rfl
  | obj kvs => rfl
  | str s =>
    rw [normDt_str]
    by_cases hse : s = ""
    · rw [if_neg (not_not_intro hse)]
      rw [normDt_str, if_neg (not_not_intro hse)]
    · rw [if_pos hse]
      by_cases hn : matchNaive s = true
      · rw [if_pos hn]
        obtain ⟨hc1, hc2, hclen⟩ := canon_naive hn
        obtain ⟨_, _, hnee⟩ := str_ne_lits (c := pushZ (replTZ s)) (by omega)
        show normDt (.str (pushZ (replTZ s))) = _
        rw [normDt_str, if_pos hnee, if_neg (by rw [hc1]; exact Bool.false_ne_true),
          if_neg (by rw [hc2]; exact Bool.false_ne_true)]
      · rw [if_neg hn]
        by_cases ht : matchTexact s = true
        · rw [if_pos ht]
          obtain ⟨hc1, hc2, hclen⟩ := canon_texact ht
          obtain ⟨_, _, hnee⟩ := str_ne_lits (c := pushZ s) (by omega)
          show normDt (.str (pushZ s)) = _
          rw [normDt_str, if_pos hnee, if_neg (by rw [hc1]; exact Bool.false_ne_true),
            if_neg (by rw [hc2]; exact Bool.false_ne_true)]
        · rw [if_neg ht]
          rw [normDt_str, if_pos hse, if_neg hn, if_neg ht]

/-- The canonical datetime form is never the literal `"1"` or `"0"`, so
the boolean branch cannot fire on it either: full per-field idempotence of
validate_file's normalization. -/
theorem normField_idem (k : String) (v : Json) :
    normField k (normField k v).1 = ((normField k v).1, false) := by
  have hdtstr : ∀ s : String, ∃ t : String, normDt (.str s) = (.str t, (normDt (.str s)).2) := by
    intro s
    rw [normDt_str]
    by_cases hse : s = ""
    · rw [if_neg (not_not_intro hse)]
      exact ⟨s, rfl⟩
    · rw [if_pos hse]
      by_cases hn : matchNaive s = true
      · rw [if_pos hn]; exact ⟨_, rfl⟩
      · rw [if_neg hn]
        by_cases ht : matchTexact s = true
        · rw [if_pos ht]; exact ⟨_, rfl⟩
        · rw [if_neg ht]; exact ⟨s, rfl⟩
  cases v with
  | null => rfl
  | bool b => rfl
  | int n => rfl
  | arr xs => rfl
  | obj kvs => rfl
  | str s =>
    rw [normField_str]
    by_cases hb : boolFields.contains k = true
    · rw [if_pos hb]
      by_cases hs1 : s = "1"
      · rw [if_pos hs1]
        rfl
      · rw [if_neg hs1]
        by_cases hs0 : s = "0"
        · rw [if_pos hs0]
          rfl
        · rw [if_neg hs0]
          -- the stored value is normDt's output; show the second pass
          -- takes neither the boolean branch nor a datetime branch on it
          by_cases hse : s = ""
          · rw [normDt_str, if_neg (not_not_intro hse)]
            rw [normField_str, if_pos hb, if_neg hs1, if_neg hs0, normDt_str,
              if_neg (not_not_intro hse)]
          · by_cases hn : matchNaive s = true
            · rw [normDt_str, if_pos hse, if_pos hn]
              obtain ⟨hc1, hc2, hclen⟩ := canon_naive hn
              obtain ⟨hne1, hne0, hnee⟩ := str_ne_lits (c := pushZ (replTZ s)) (by omega)
              show normField k (.str (pushZ (replTZ s))) = _
              rw [normField_str, if_pos hb, if_neg hne1, if_neg hne0, normDt_str,
                if_pos hnee, if_neg (by rw [hc1]; exact Bool.false_ne_true),
                if_neg (by rw [hc2]; exact Bool.false_ne_true)]
            · by_cases ht : matchTexact s = true
              · rw [normDt_str, if_pos hse, if_neg hn, if_pos ht]
                obtain ⟨hc1, hc2, hclen⟩ := canon_texact ht
                obtain ⟨hne1, hne0, hnee⟩ := str_ne_lits (c := pushZ s) (by omega)
                show normField k (.str (pushZ s)) = _
                rw [normField_str, if_pos hb, if_neg hne1, if_neg hne0, normDt_str,
                  if_pos hnee, if_neg (by rw [hc1]; exact Bool.false_ne_true),
                  if_neg (by rw [hc2]; exact Bool.false_ne_true)]
              · rw [normDt_str, if_pos hse, if_neg hn, if_neg ht]
                rw [normField_str, if_pos hb, if_neg hs1, if_neg hs0, normDt_str,
                  if_pos hse, if_neg hn, if_neg ht]
    · rw [if_neg hb]
      obtain ⟨t, ht⟩ := hdtstr s
      rw [ht]
      rw [normField_str, if_neg hb]
      have := normDt_idem (.str s)
      rw [ht] at this
      exact this

theorem normFields_idem (fs : List (String × Json)) :
    normFields (normFields fs).1 = ((normFields fs).1, false) := by
  induction fs with
  | nil => rfl
  | cons p rest ih =>
    obtain ⟨k, v⟩ := p
    simp only [normFields]
    rw [normField_idem, ih]
    rfl

theorem normObj_obj (kvs : List (String × Json)) : normObj (.obj kvs) =
    (match dGet kvs "model" with
     | some m =>
       if pyTruthy m then
         match dGet kvs "fields" with
         | some (.obj fs) =>
           let r := normFields fs
           (Json.obj (dSet kvs "fields" (.obj r.1)), r.2)
         | _ => (.obj kvs, false)
       else (.obj kvs, false)
     | none => (.obj kvs, false)) := rfl

theorem normObj_unchanged_shapes (kvs : List (String × Json))
    (h : ∀ m, dGet kvs "model" = some m → pyTruthy m = true →
      ∀ fv, dGet kvs "fields" = some fv → ∀ fs, fv ≠ .obj fs) :
    normObj (.obj kvs) = (.obj kvs, false) := by
  rw [normObj_obj]
  cases hm : dGet kvs "model" with
  | none => rfl
  | some m =>
    dsimp only
    by_cases hmt : pyTruthy m = true
    · rw [if_pos hmt]
      cases hf : dGet kvs "fields" with
      | none => rfl
      | some fv =>
        cases fv with
        | obj fs => exact absurd rfl (h m hm hmt _ hf fs)
        | null => rfl
        | bool b => rfl
        | int n => rfl
        | str s => rfl
        | arr xs => rfl
    · rw [if_neg hmt]

theorem normObj_idem (o : Json) : normObj (normObj o).1 = ((normObj o).1, false) := by
  cases o with
  | null => rfl
  | bool b => rfl
  | int n => rfl
  | str s => rfl
  | arr xs => rfl
  | obj kvs =>
    cases hm : dGet kvs "model" with
    | none =>
      have hres : normObj (.obj kvs) = (.obj kvs, false) := by
        rw [normObj_obj, hm]
      rw [hres]
      exact hres
    | some m =>
      by_cases hmt : pyTruthy m = true
      · cases hf : dGet kvs "fields" with
        | none =>
          have hres : normObj (.obj kvs) = (.obj kvs, false) := by
            rw [normObj_obj, hm]
            dsimp only
            rw [if_pos hmt, hf]
          rw [hres]
          exact hres
        | some fv =>
          cases fv with
          | obj fs =>
            have hres : normObj (.obj kvs) =
                (.obj (dSet kvs "fields" (.obj (normFields fs).1)), (normFields fs).2) := by
              rw [normObj_obj, hm]
              dsimp only
              rw [if_pos hmt, hf]
            rw [hres]
            have hm' : dGet (dSet kvs "fields" (.obj (normFields fs).1)) "model" = some m := by
              rw [dGet_dSet_ne _ _ _ _ (by decide)]
              exact hm
            have hf' : dGet (dSet kvs "fields" (.obj (normFields fs).1)) "fields"
                = some (.obj (normFields fs).1) := dGet_dSet_self _ _ _
            show normObj (.obj (dSet kvs "fields" (.obj (normFields fs).1))) = _
            rw [normObj_obj, hm']
            dsimp only
            rw [if_pos hmt, hf']
            dsimp only
            rw [normFields_idem, dSet_dSet]
          | null =>
            have hres : normObj (.obj kvs) = (.obj kvs, false) := by
              rw [normObj_obj, hm]
              dsimp only
              rw [if_pos hmt, hf]
            rw [hres]
            exact hres
          | bool b =>
            have hres : normObj (.obj kvs) = (.obj kvs, false) := by
              rw [normObj_obj, hm]
              dsimp only
              rw [if_pos hmt, hf]
            rw [hres]
            exact hres
          | int n =>
            have hres : normObj (.obj kvs) = (.obj kvs, false) := by
              rw [normObj_obj, hm]
              dsimp only
              rw [if_pos hmt, hf]
            rw [hres]
            exact hres
          | str t =>
            have hres : normObj (.obj kvs) = (.obj kvs, false) := by
              rw [normObj_obj, hm]
              dsimp only
              rw [if_pos hmt, hf]
            rw [hres]
            exact hres
          | arr xs =>
            have hres : normObj (.obj kvs) = (.obj kvs, false) := by
              rw [normObj_obj, hm]
              dsimp only
              rw [if_pos hmt, hf]
            rw [hres]
            exact hres
      · have hres : normObj (.obj kvs) = (.obj kvs, false) := by
          rw [normObj_obj, hm]
          dsimp only
          rw [if_neg hmt]
        rw [hres]
        exact hres

theorem normData_idem (ds : List Json) :
    normData (normData ds).1 = ((normData ds).1, false) := by
  induction ds with
  | nil => rfl
  | cons o rest ih =>
    simp only [normData]
    rw [normObj_idem, ih]
    rfl

/-! ### Helper lemmas: the `modified` flag tracks value change exactly -/

theorem normDt_not_modified {s : String} (h : (normDt (.str s)).2 = false) :
    (normDt (.str s)).1 = .str s := by
  rw [normDt_str] at h ⊢
  by_cases hse : s = ""
  · rw [if_neg (not_not_intro hse)]
  · rw [if_pos hse] at h ⊢
    by_cases hn : matchNaive s = true
    · rw [if_pos hn] at h
      exact Bool.noConfusion h
    · rw [if_neg hn] at h ⊢
      by_cases ht : matchTexact s = true
      · rw [if_pos ht] at h
        exact Bool.noConfusion h
      · rw [if_neg ht]

theorem normField_not_modified {k : String} {v : Json} (h : (normField k v).2 = false) :
    (normField k v).1 = v := by
  cases v with
  | null => rfl
  | bool b => rfl
  | int n => rfl
  | arr xs => rfl
  | obj kvs => rfl
  | str s =>
    rw [normField_str] at h ⊢
    by_cases hb : boolFields.contains k = true
    · rw [if_pos hb] at h ⊢
      by_cases hs1 : s = "1"
      · rw [if_pos hs1] at h
        exact Bool.noConfusion h
      · rw [if_neg hs1] at h ⊢
        by_cases hs0 : s = "0"
        · rw [if_pos hs0] at h
          exact Bool.noConfusion h
        · rw [if_neg hs0] at h ⊢
          exact normDt_not_modified h
    · rw [if_neg hb] at h ⊢
      exact normDt_not_modified h

theorem normDt_modified_ne {s : String} (h : (normDt (.str s)).2 = true) :
    (normDt (.str s)).1 ≠ .str s := by
  rw [normDt_str] at h ⊢
  by_cases hse : s = ""
  · rw [if_neg (not_not_intro hse)] at h
    exact Bool.noConfusion h
  · rw [if_pos hse] at h ⊢
    by_cases hn : matchNaive s = true
    · rw [if_pos hn]
      intro he
      have he' : Json.str (pushZ (replTZ s)) = Json.str s := he
      have he2 : pushZ (replTZ s) = s := by injection he'
      have hlen : (pushZ (replTZ s)).data.length = s.data.length + 1 := by
        show (s.data.map spT ++ ['Z']).length = _
        rw [List.length_append, List.length_map]
        rfl
      rw [he2] at hlen
      omega
    · rw [if_neg hn] at h ⊢
      by_cases ht : matchTexact s = true
      · rw [if_pos ht]
        intro he
        have he' : Json.str (pushZ s) = Json.str s := he
        have he2 : pushZ s = s := by injection he'
        have hlen : (pushZ s).data.length = s.data.length + 1 := by
          show (s.data ++ ['Z']).length = _
          rw [List.length_append]
          rfl
        rw [he2] at hlen
        omega
      · rw [if_neg ht] at h
        exact Bool.noConfusion h

theorem normField_modified_ne {k : String} {v : Json} (h : (normField k v).2 = true) :
    (normField k v).1 ≠ v := by
  cases v with
  | null => exact Bool.noConfusion h
  | bool b => exact Bool.noConfusion h
  | int n => exact Bool.noConfusion h
  | arr xs => exact Bool.noConfusion h
  | obj kvs => exact Bool.noConfusion h
  | str s =>
    rw [normField_str] at h ⊢
    by_cases hb : boolFields.contains k = true
    · rw [if_pos hb] at h ⊢
      by_cases hs1 : s = "1"
      · rw [if_pos hs1]
        intro he
        exact Json.noConfusion (show Json.bool true = Json.str s from he)
      · rw [if_neg hs1] at h ⊢
        by_cases hs0 : s = "0"
        · rw [if_pos hs0]
          intro he
          exact Json.noConfusion (show Json.bool false = Json.str s from he)
        · rw [if_neg hs0] at h ⊢
          exact normDt_modified_ne h
    · rw [if_neg hb] at h ⊢
      exact normDt_modified_ne h

/-! ### Helper lemmas: file-level validate_file behavior -/

theorem runValidateFile_arr {contents : String} {ds : List Json}
    (h : loads contents = some (.arr ds)) :
    runValidateFile contents =
      (if (normData ds).2 = true then
        some ⟨(normData ds).1, true, some contents, some (dumpsRaw (.arr (normData ds).1))⟩
      else some ⟨(normData ds).1, false, none, none⟩) := by
  unfold runValidateFile
  rw [h]

theorem validate_nomod_no_writes {contents : String} {r : ValidateResult}
    (h : runValidateFile contents = some r) (hm : r.modified = false) :
    r.backup = none ∧ r.written = none := by
  cases hl : loads contents with
  | none =>
    unfold runValidateFile at h
    rw [hl] at h
    exact Option.noConfusion h
  | some j =>
    cases j with
    | arr ds =>
      rw [runValidateFile_arr hl] at h
      by_cases hmod : (normData ds).2 = true
      · rw [if_pos hmod] at h
        have he := Option.some.inj h
        rw [← he] at hm
        exact Bool.noConfusion hm
      · rw [if_neg hmod] at h
        have he := Option.some.inj h
        rw [← he]
        exact ⟨rfl, rfl⟩
    | null =>
      unfold runValidateFile at h
      rw [hl] at h
      exact Option.noConfusion h
    | bool b =>
      unfold runValidateFile at h
      rw [hl] at h
      exact Option.noConfusion h
    | int n =>
      unfold runValidateFile at h
      rw [hl] at h
      exact Option.noConfusion h
    | str s =>
      unfold runValidateFile at h
      rw [hl] at h
      exact Option.noConfusion h
    | obj kvs =>
      unfold runValidateFile at h
      rw [hl] at h
      exact Option.noConfusion h

theorem validate_modified_writes {contents : String} {ds : List Json}
    (hl : loads contents = some (.arr ds)) (hm : (normData ds).2 = true) :
    runValidateFile contents =
      some ⟨(normData ds).1, true, some contents, some (dumpsRaw (.arr (normData ds).1))⟩ := by
  rw [runValidateFile_arr hl, if_pos hm]

/-- The canonical form made from a naive timestamp is a fixed point of the
whole per-field normalization, whatever the field name. -/
theorem normField_canon_naive {k s : String} (h : matchNaive s = true) :
    normField k (.str (pushZ (replTZ s))) = (.str (pushZ (replTZ s)), false) := by
  obtain ⟨hc1, hc2, hclen⟩ := canon_naive h
  obtain ⟨hne1, hne0, hnee⟩ := str_ne_lits (c := pushZ (replTZ s)) (by omega)
  rw [normField_str]
  by_cases hb : boolFields.contains k = true
  · rw [if_pos hb, if_neg hne1, if_neg hne0, normDt_str, if_pos hnee,
      if_neg (by rw [hc1]; exact Bool.false_ne_true),
      if_neg (by rw [hc2]; exact Bool.false_ne_true)]
  · rw [if_neg hb, normDt_str, if_pos hnee,
      if_neg (by rw [hc1]; exact Bool.false_ne_true),
      if_neg (by rw [hc2]; exact Bool.false_ne_true)]

/-- The canonical form is also a fixed point of the auth-user fixer's
datetime step: it contains both `T` and `Z`, so the rewrite condition is
false. -/
theorem fixDtStep_canon {d : String} {fs : List (String × Json)} {s : String}
    (hm : matchNaive s = true) (hget : dGet fs d = some (.str (pushZ (replTZ s)))) :
    fixDtStep fs d = fs := by
  obtain ⟨hlen, h10⟩ := matchNaive_elim hm
  obtain ⟨hc1, hc2, hclen⟩ := canon_naive hm
  obtain ⟨_, _, hnee⟩ := str_ne_lits (c := pushZ (replTZ s)) (by omega)
  have hT : (pushZ (replTZ s)).data.contains 'T' = true := by
    apply List.elem_eq_true_of_mem
    show 'T' ∈ s.data.map spT ++ ['Z']
    apply List.mem_append.mpr
    left
    refine List.mem_map.mpr ⟨' ', ?_, rfl⟩
    have h10e : s.data[10]? = some ' ' := by
      rw [List.getElem?_eq_getElem (show 10 < s.data.length by omega)]
      have hce := chAt_lt (show 10 < s.data.length by omega)
      rw [← hce, h10]
    exact List.getElem?_mem h10e
  have hZ : (pushZ (replTZ s)).data.contains 'Z' = true := by
    apply List.elem_eq_true_of_mem
    show 'Z' ∈ s.data.map spT ++ ['Z']
    simp
  have hcond : (!((pushZ (replTZ s)).data.contains 'T')
      || (!((pushZ (replTZ s)).data.contains '+') && !((pushZ (replTZ s)).data.contains 'Z')
          && !(((pushZ (replTZ s)).data.drop 11).contains '-'))) = false := by
    rw [hT, hZ]
    simp
  unfold fixDtStep
  rw [hget]
  dsimp only
  rw [if_pos hnee, if_neg (by rw [hcond]; exact Bool.false_ne_true)]

/-! ### The claims -/

/-- C1: the normalizer/repair pass is idempotent: on the output of a
previous run it changes no field value and reports `modified = false`, and
a pass that reports no change writes neither a backup nor the file, so the
second run's on-disk output is byte-identical; in particular the
`YYYY-MM-DDTHH:MM:SSZ` form rewritten from a naive timestamp is recognized
as already canonical both by validate_file's per-field normalization and
by the auth-user fixer's datetime step. -/
theorem C1_normalizer_idempotent :
    (∀ ds : List Json, normData (normData ds).1 = ((normData ds).1, false)) ∧
    (∀ (contents : String) (r : ValidateResult), runValidateFile contents = some r →
      r.modified = false → r.backup = none ∧ r.written = none) ∧
    (∀ k s : String, matchNaive s = true →
      normField k (.str (pushZ (replTZ s))) = (.str (pushZ (replTZ s)), false)) ∧
    (∀ (d : String) (fs : List (String × Json)) (s : String), matchNaive s = true →
      dGet fs d = some (.str (pushZ (replTZ s))) → fixDtStep fs d = fs) :=
  ⟨normData_idem, fun _ _ h hm => validate_nomod_no_writes h hm,
   fun _ _ h => normField_canon_naive h, fun _ _ _ hm hget => fixDtStep_canon hm hget⟩

/-- Witness for C1 at concrete inputs: a file that parses but needs no
change, and the concrete canonical timestamp. -/
theorem C1_witness :
    ((⟨[], false, none, none⟩ : ValidateResult).backup = none ∧
     (⟨[], false, none, none⟩ : ValidateResult).written = none) ∧
    normField "start_time" (.str (pushZ (replTZ "2026-07-01 10:00:00")))
      = (.str (pushZ (replTZ "2026-07-01 10:00:00")), false) ∧
    fixDtStep [("last_login", .str (pushZ (replTZ "2026-07-01 10:00:00")))] "last_login"
      = [("last_login", .str (pushZ (replTZ "2026-07-01 10:00:00")))] :=
  ⟨C1_normalizer_idempotent.2.1 "[]" ⟨[], false, none, none⟩ rfl rfl,
   C1_normalizer_idempotent.2.2.1 "start_time" "2026-07-01 10:00:00" (by decide),
   C1_normalizer_idempotent.2.2.2 "last_login" _ "2026-07-01 10:00:00" (by decide) rfl⟩

/-- C9: a pass that changes zero field values (the `modified` flag stays
false) writes no backup and does not rewrite the file; the flag tracks
change exactly: an unmodified field keeps its value and a modified field's
stored value really differs from the original. -/
theorem C9_noop_pass_writes_nothing :
    (∀ (contents : String) (r : ValidateResult), runValidateFile contents = some r →
      r.modified = false → r.backup = none ∧ r.written = none) ∧
    (∀ (k : String) (v : Json), (normField k v).2 = false → (normField k v).1 = v) ∧
    (∀ (k : String) (v : Json), (normField k v).2 = true → (normField k v).1 ≠ v) :=
  ⟨fun _ _ h hm => validate_nomod_no_writes h hm,
   fun _ _ h => normField_not_modified h,
   fun _ _ h => normField_modified_ne h⟩

/-- Witness for C9 at concrete inputs. -/
theorem C9_witness :
    ((⟨[], false, none, none⟩ : ValidateResult).backup = none ∧
     (⟨[], false, none, none⟩ : ValidateResult).written = none) ∧
    (normField "name" (.int 3)).1 = .int 3 ∧
    (normField "is_superuser" (.str "1")).1 ≠ .str "1" :=
  ⟨C9_noop_pass_writes_nothing.1 "[]" ⟨[], false, none, none⟩ rfl rfl,
   C9_noop_pass_writes_nothing.2.1 "name" (.int 3) rfl,
   C9_noop_pass_writes_nothing.2.2 "is_superuser" (.str "1") rfl⟩

/-- C10: the primary-key conversion `int(data.get('id'))` on line 49 of
generate_fixtures.py is unguarded, so a mapped row whose non-empty `id`
cell is not a decimal integer literal raises an uncaught `ValueError` and
the whole extraction run aborts. -/
theorem C10_nonnumeric_id_aborts :
    computePk (some "abc") = .error () ∧
    runExtraction ["COPY public._core_team (id, name) FROM stdin;", "X9\tAlpha", "\\."]
      = .error () :=
  ⟨rfl, rfl⟩

/-- C4 (counterexample): a dump that ends inside a bulk-copy block (header
and one data row, no `\.` terminator) is not treated as a fatal error: the
extraction run completes normally with exit 0 and the partial block's rows
are emitted as records. -/
theorem C4_counterexample :
    runExtraction ["COPY public._core_team (id, name) FROM stdin;", "7\tAlpha"]
      = .ok [⟨"games.team", some 7, [("name", .str "Alpha")]⟩] := rfl

/-- C4 (amended): end of input while inside a bulk-copy block silently
ends the block: the rows collected so far form the block's row list and it
is processed like a terminated block; no error is raised. -/
theorem C4_amended_eof_ends_block (rest : List String) (b : Block)
    (h : ∀ l ∈ rest, pyStrip l ≠ "\\.") :
    scanBlocks rest (some b) = [{ b with rows := b.rows ++ rest }] := by
  induction rest generalizing b with
  | nil =>
    rw [List.append_nil]
    rfl
  | cons l t ih =>
    show (if pyStrip l = "\\." then b :: scanBlocks t none
          else scanBlocks t (some { b with rows := b.rows ++ [l] })) = _
    rw [if_neg (h l (by simp))]
    rw [ih _ (fun x hx => h x (by simp [hx]))]
    rw [List.append_assoc]
    rfl

/-- Witness for the amended C4 at a concrete truncated input. -/
theorem C4_witness :
    scanBlocks ["7\tAlpha"] (some ⟨"_core_team", ["id", "name"], []⟩)
      = [⟨"_core_team", ["id", "name"], ["7\tAlpha"]⟩] := by
  have h := C4_amended_eof_ends_block ["7\tAlpha"] ⟨"_core_team", ["id", "name"], []⟩
    (by intro l hl; rw [List.mem_singleton] at hl; subst hl; decide)
  simpa using h

/-- C6 (counterexample): during the generic repair pass the boolean-like
string `"true"` in the boolean-semantic field `is_superuser` is NOT
rewritten to a boolean — only `'1'`/`'0'` are — and the pass reports no
change on such a record. -/
theorem C6_counterexample :
    normData [.obj [("model", .str "authman.user"), ("pk", .int 1),
        ("fields", .obj [("is_superuser", .str "true")])]]
      = ([.obj [("model", .str "authman.user"), ("pk", .int 1),
          ("fields", .obj [("is_superuser", .str "true")])]], false) := rfl

/-- C6 (amended): the generic normalizer rewrites exactly the strings
`'1'` and `'0'` in the boolean-semantic fields (`'1'` → true, `'0'` →
false) and leaves `'true'`/`'True'` as strings; the auth-user fixer
rewrites every string value in those fields, mapping `'1'`, `'true'` and
`'True'` to true and every other string to false. -/
theorem C6_amended_boolean_normalization :
    (∀ k : String, boolFields.contains k = true →
      normField k (.str "1") = (.bool true, true) ∧
      normField k (.str "0") = (.bool false, true) ∧
      normField k (.str "true") = (.str "true", false) ∧
      normField k (.str "True") = (.str "True", false)) ∧
    (∀ (fs : List (String × Json)) (b s : String),
      (["is_superuser", "is_staff", "is_active"]).contains b = true →
      dGet fs b = some (.str s) →
      dGet (fixBoolStep fs b) b = some (.bool (s = "1" || s = "true" || s = "True"))) := by
  constructor
  · intro k hb
    refine ⟨?_, ?_, ?_, ?_⟩ <;> rw [normField_str, if_pos hb] <;> rfl
  · intro fs b s _ hget
    unfold fixBoolStep
    rw [hget]
    dsimp only
    exact dGet_dSet_self fs b _

/-- Witness for the amended C6 at concrete inputs. -/
theorem C6_witness :
    normField "is_superuser" (.str "true") = (.str "true", false) ∧
    dGet (fixBoolStep [("is_superuser", Json.str "true")] "is_superuser") "is_superuser"
      = some (.bool ("true" = "1" || "true" = "true" || "true" = "True")) :=
  ⟨(C6_amended_boolean_normalization.1 "is_superuser" (by decide)).2.2.1,
   C6_amended_boolean_normalization.2 [("is_superuser", Json.str "true")]
     "is_superuser" "true" (by decide) rfl⟩

/-- C2 (counterexample): the auth-user fixer's backup is not a
byte-for-byte snapshot of the file's prior contents: on a file whose
contents are `[ ]` (valid JSON for an empty record list) the fixer
rewrites the file, but the backup it writes first is the re-serialization
`[]`, which differs from the prior contents. -/
theorem C2_counterexample :
    loads "[ ]" = some (.arr []) ∧
    runFixer "[ ]" = some ("[]", "[]") ∧
    ("[]" : String) ≠ "[ ]" :=
  ⟨rfl, rfl, by decide⟩

/-- C2 (amended): the generic normalizer's backup is byte-for-byte the
file's prior contents; the auth-user fixer's backup is the indent-2
re-serialization of the parsed prior contents, which is byte-identical to
the prior contents exactly when the file was already in that serialization
format. -/
theorem C2_amended_backup_semantics :
    (∀ (contents : String) (ds : List Json), loads contents = some (.arr ds) →
      (normData ds).2 = true →
      runValidateFile contents =
        some ⟨(normData ds).1, true, some contents, some (dumpsRaw (.arr (normData ds).1))⟩) ∧
    (∀ (contents : String) (d : Json), loads contents = some d →
      runFixer contents = some (dumpsRaw d, dumpsRaw (fixData d)) ∧
      (contents = dumpsRaw d → ∃ p, runFixer contents = some p ∧ p.1 = contents)) := by
  constructor
  · intro contents ds hl hm
    exact validate_modified_writes hl hm
  · intro contents d hl
    have h1 : runFixer contents = some (dumpsRaw d, dumpsRaw (fixData d)) := by
      unfold runFixer
      rw [hl]
      rfl
    exact ⟨h1, fun he => ⟨(dumpsRaw d, dumpsRaw (fixData d)), h1, he.symm⟩⟩

/-- Witness for the amended C2: a change-producing validate_file run whose
backup is exactly the prior contents, and a fixer run on an
already-canonically-serialized file whose backup is byte-identical. -/
theorem C2_witness :
    runValidateFile "[\x7b\"model\": \"authman.user\", \"pk\": 1, \"fields\": \x7b\"is_superuser\": \"1\"\x7d\x7d]"
      = some ⟨(normData [.obj [("model", .str "authman.user"), ("pk", .int 1),
          ("fields", .obj [("is_superuser", .str "1")])]]).1, true,
          some "[\x7b\"model\": \"authman.user\", \"pk\": 1, \"fields\": \x7b\"is_superuser\": \"1\"\x7d\x7d]",
          some (dumpsRaw (.arr (normData [.obj [("model", .str "authman.user"), ("pk", .int 1),
            ("fields", .obj [("is_superuser", .str "1")])]]).1))⟩ ∧
    (∃ p, runFixer "[]" = some p ∧ p.1 = "[]") :=
  ⟨C2_amended_backup_semantics.1
      "[\x7b\"model\": \"authman.user\", \"pk\": 1, \"fields\": \x7b\"is_superuser\": \"1\"\x7d\x7d]"
      [.obj [("model", .str "authman.user"), ("pk", .int 1),
        ("fields", .obj [("is_superuser", .str "1")])]] rfl rfl,
   (C2_amended_backup_semantics.2 "[]" (.arr []) rfl).2 rfl⟩

/-! ### Helper lemmas: the coercion guard -/

theorem measurement_not_relation {col : String}
    (h : measurementFields.contains col = true) :
    (pyEndsWith col "_id" || relationNames.contains col) = false := by
  have hm : col ∈ measurementFields := List.mem_of_elem_eq_true h
  fin_cases hm <;> decide

theorem relation_not_measurement {col : String}
    (h : (pyEndsWith col "_id" || relationNames.contains col) = true) :
    measurementFields.contains col = false := by
  by_contra hne
  rw [Bool.not_eq_false] at hne
  rw [measurement_not_relation hne] at h
  exact Bool.noConfusion h

theorem coerceFieldE_not_measurement {col : String} (val : String)
    (hm : measurementFields.contains col = false) :
    coerceFieldE col val =
      (if (pyEndsWith col "_id" || relationNames.contains col) && pyIsdigit val then
        (pyInt val).map Json.int
      else .ok (.str val)) := by
  unfold coerceFieldE
  simp only [hm, Bool.false_eq_true, if_false]
  rfl

/-- C3: the per-field type coercion of generate_fixtures.py lines 57-63 is
total: every string input yields a value and the unguarded relation-field
`int()` call is unreachable in the failing case; in particular a failed
measurement integer conversion falls back to the original string. -/
theorem C3_coercion_total :
    (∀ col val : String, ∃ j, coerceFieldE col val = .ok j) ∧
    (∀ col val : String, measurementFields.contains col = true →
      pyInt val = .error () → coerceFieldE col val = .ok (.str val)) := by
  constructor
  · intro col val
    by_cases hm : measurementFields.contains col = true
    · have hrel := measurement_not_relation hm
      unfold coerceFieldE
      simp only [hm, if_true, hrel, Bool.false_and, Bool.false_eq_true, if_false]
      exact ⟨_, rfl⟩
    · rw [Bool.not_eq_true] at hm
      rw [coerceFieldE_not_measurement val hm]
      by_cases hg : ((pyEndsWith col "_id" || relationNames.contains col) && pyIsdigit val) = true
      · rw [if_pos hg]
        rw [Bool.and_eq_true] at hg
        rw [pyInt_of_isdigit hg.2]
        exact ⟨_, rfl⟩
      · rw [if_neg hg]
        exact ⟨_, rfl⟩
  · intro col val hm herr
    have hrel := measurement_not_relation hm
    unfold coerceFieldE
    simp only [hm, if_true, herr, hrel, Bool.false_and, Bool.false_eq_true, if_false]

/-- Witness for C3: the measurement field `capacity` with the non-numeric
raw value `abc` keeps the string. -/
theorem C3_witness :
    (∃ j, coerceFieldE "capacity" "abc" = .ok j) ∧
    coerceFieldE "capacity" "abc" = .ok (.str "abc") :=
  ⟨C3_coercion_total.1 "capacity" "abc",
   C3_coercion_total.2 "capacity" "abc" rfl rfl⟩

/-- C5: a mapped non-id field whose target name ends in `_id` or is one of
the fixed relation-field names is coerced to integer exactly when the raw
string is all-decimal-digit; any other raw string is kept unchanged as a
string, with no exception. -/
theorem C5_relation_coercion_iff_digits (col val : String)
    (hrel : (pyEndsWith col "_id" || relationNames.contains col) = true) :
    (pyIsdigit val = true → coerceFieldE col val = .ok (.int (digitsVal val.data))) ∧
    (pyIsdigit val = false → coerceFieldE col val = .ok (.str val)) := by
  have hm := relation_not_measurement hrel
  rw [coerceFieldE_not_measurement val hm]
  constructor
  · intro hd
    rw [if_pos (show ((pyEndsWith col "_id" || relationNames.contains col) && pyIsdigit val) = true
      by rw [hrel, hd]; rfl)]
    rw [pyInt_of_isdigit hd]
    rfl
  · intro hd
    rw [if_neg (show ¬(((pyEndsWith col "_id" || relationNames.contains col) && pyIsdigit val) = true)
      by rw [hd, Bool.and_false]; exact Bool.false_ne_true)]

/-- Witness for C5: the relation field `team` with a numeric and with a
non-numeric raw value. -/
theorem C5_witness :
    coerceFieldE "team" "123" = .ok (.int (digitsVal "123".data)) ∧
    coerceFieldE "team" "abc" = .ok (.str "abc") :=
  ⟨(C5_relation_coercion_iff_digits "team" "123" (by decide)).1 rfl,
   (C5_relation_coercion_iff_digits "team" "abc" (by decide)).2 rfl⟩

/-! ### Helper lemmas: the groups membership fixer -/

/-- How many times the sentinel id `n` occurs (under Python `==`) in a
record's membership list. -/
def sentinelCount (fs : List (String × Json)) (n : Int) : Nat :=
  (groupsListOf fs).countP (fun y => pyEq y (.int n))

theorem cnt_zero_of_notin {g : List Json} {n : Int} (h : pyIn (.int n) g = false) :
    g.countP (fun y => pyEq y (.int n)) = 0 := by
  rw [List.countP_eq_zero]
  intro a ha hpa
  rw [pyIn, List.any_eq_false] at h
  exact h a ha hpa

theorem deriveG1_count {fs : List (String × Json)} {g0 : List Json} {n : Int}
    (hn : n = 1 ∨ n = 2) (h : g0.countP (fun y => pyEq y (.int n)) ≤ 1) :
    (deriveG1 fs g0).countP (fun y => pyEq y (.int n)) ≤ 1 := by
  unfold deriveG1
  by_cases hc : pyTruthy ((dGet fs "is_superuser").getD .null) = true
  · rw [if_pos hc]
    by_cases hin : pyIn (.int 1) g0 = true
    · rw [if_pos hin]
      exact h
    · rw [Bool.not_eq_true] at hin
      rw [if_neg (by rw [hin]; exact Bool.false_ne_true)]
      rw [List.countP_append]
      rcases hn with rfl | rfl
      · rw [cnt_zero_of_notin hin,
          show ([Json.int 1].countP (fun y => pyEq y (Json.int 1))) = 1 from rfl]
      · rw [show ([Json.int 1].countP (fun y => pyEq y (Json.int 2))) = 0 from rfl,
          Nat.add_zero]
        exact h
  · rw [if_neg hc]
    exact h

theorem deriveG2_count {fs : List (String × Json)} {g1 : List Json} {n : Int}
    (hn : n = 1 ∨ n = 2) (h : g1.countP (fun y => pyEq y (.int n)) ≤ 1) :
    (deriveG2 fs g1).countP (fun y => pyEq y (.int n)) ≤ 1 := by
  unfold deriveG2
  by_cases hc : (pyEq ((dGet fs "role").getD .null) (.str "team_manager")
      && !(pyIn (.int 2) g1)) = true
  · rw [if_pos hc]
    rw [Bool.and_eq_true] at hc
    have hin : pyIn (.int 2) g1 = false := by
      cases hx : pyIn (.int 2) g1 with
      | false => rfl
      | true => rw [hx] at hc; exact absurd hc.2 (by decide)
    rw [List.countP_append]
    rcases hn with rfl | rfl
    · rw [show ([Json.int 2].countP (fun y => pyEq y (Json.int 1))) = 0 from rfl,
        Nat.add_zero]
      exact h
    · rw [cnt_zero_of_notin hin,
        show ([Json.int 2].countP (fun y => pyEq y (Json.int 2))) = 1 from rfl]
  · rw [if_neg hc]
    exact h

theorem fixGroups_count {fs : List (String × Json)} {n : Int}
    (hn : n = 1 ∨ n = 2) (h : sentinelCount fs n ≤ 1) :
    sentinelCount (fixGroups fs) n ≤ 1 := by
  show sentinelCount
      (if !(deriveG2 fs (deriveG1 fs (groupsListOf fs))).isEmpty
       then dSet fs "groups" (.arr (deriveG2 fs (deriveG1 fs (groupsListOf fs)))) else fs) n ≤ 1
  have hg2 : (deriveG2 fs (deriveG1 fs (groupsListOf fs))).countP (fun y => pyEq y (.int n)) ≤ 1 :=
    deriveG2_count hn (deriveG1_count hn h)
  by_cases he : (!(deriveG2 fs (deriveG1 fs (groupsListOf fs))).isEmpty) = true
  · rw [if_pos he]
    show (groupsListOf (dSet fs "groups" (.arr (deriveG2 fs (deriveG1 fs (groupsListOf fs)))))).countP
        (fun y => pyEq y (.int n)) ≤ 1
    unfold groupsListOf
    rw [dGet_dSet_self]
    exact hg2
  · rw [if_neg he]
    exact h

theorem fixBoolStep_groups (fs : List (String × Json)) (b : String) (hb : b ≠ "groups") :
    dGet (fixBoolStep fs b) "groups" = dGet fs "groups" := by
  unfold fixBoolStep
  cases hg : dGet fs b with
  | none => rfl
  | some v =>
    cases v with
    | str s => exact dGet_dSet_ne fs b "groups" _ (fun he => hb he.symm)
    | null => rfl
    | bool c => rfl
    | int m => rfl
    | arr xs => rfl
    | obj kvs => rfl

theorem fixBools_groups (fs : List (String × Json)) :
    dGet (fixBools fs) "groups" = dGet fs "groups" := by
  show dGet (fixBoolStep (fixBoolStep (fixBoolStep fs "is_superuser") "is_staff") "is_active")
      "groups" = dGet fs "groups"
  rw [fixBoolStep_groups _ _ (by decide), fixBoolStep_groups _ _ (by decide),
    fixBoolStep_groups _ _ (by decide)]

theorem fixDtStep_groups (fs : List (String × Json)) (d : String) (hd : d ≠ "groups") :
    dGet (fixDtStep fs d) "groups" = dGet fs "groups" := by
  unfold fixDtStep
  cases hg : dGet fs d with
  | none => rfl
  | some v =>
    cases v with
    | str s =>
      dsimp only
      split
      · split
        · exact dGet_dSet_ne fs d "groups" _ (fun he => hd he.symm)
        · rfl
      · rfl
    | null => rfl
    | bool c => rfl
    | int m => rfl
    | arr xs => rfl
    | obj kvs => rfl

theorem fixDts_groups (fs : List (String × Json)) :
    dGet (fixDts fs) "groups" = dGet fs "groups" := by
  show dGet (fixDtStep (fixDtStep fs "last_login") "date_joined") "groups" = dGet fs "groups"
  rw [fixDtStep_groups _ _ (by decide), fixDtStep_groups _ _ (by decide)]

theorem fixFields_count {fs : List (String × Json)} {n : Int}
    (hn : n = 1 ∨ n = 2) (h : sentinelCount fs n ≤ 1) :
    sentinelCount (fixFields fs) n ≤ 1 := by
  unfold fixFields
  apply fixGroups_count hn
  show (groupsListOf (fixDts (fixBools fs))).countP (fun y => pyEq y (.int n)) ≤ 1
  unfold groupsListOf
  rw [fixDts_groups, fixBools_groups]
  exact h

/-- C8: running the role-derived membership fixer any number of times on a
record whose membership list holds each sentinel id at most once never
introduces a duplicate: after any number of runs sentinel id 1 (for a true
privileged-role flag) and sentinel id 2 (for the `team_manager` role) each
still occur at most once in the `groups` list. -/
theorem C8_no_duplicate_sentinels (fs : List (String × Json)) (m : Nat)
    (h1 : sentinelCount fs 1 ≤ 1) (h2 : sentinelCount fs 2 ≤ 1) :
    sentinelCount (fixFields^[m] fs) 1 ≤ 1 ∧ sentinelCount (fixFields^[m] fs) 2 ≤ 1 := by
  induction m with
  | zero => exact ⟨h1, h2⟩
  | succ k ih =>
    rw [Function.iterate_succ_apply']
    exact ⟨fixFields_count (Or.inl rfl) ih.1, fixFields_count (Or.inr rfl) ih.2⟩

/-- Witness for C8: three runs on a fresh superuser/team-manager record
leave each sentinel id occurring at most once. -/
theorem C8_witness :
    sentinelCount
        (fixFields^[3] [("is_superuser", Json.bool true), ("role", Json.str "team_manager")]) 1 ≤ 1 ∧
    sentinelCount
        (fixFields^[3] [("is_superuser", Json.bool true), ("role", Json.str "team_manager")]) 2 ≤ 1 :=
  C8_no_duplicate_sentinels [("is_superuser", Json.bool true), ("role", Json.str "team_manager")] 3
    (by decide) (by decide)

/-! ### Helper lemmas: the absence-not-null invariant -/

/-- A stored field value that respects the absence-not-null convention:
never the JSON null and never the empty string. -/
def goodVal (v : Json) : Prop := v ≠ Json.null ∧ v ≠ Json.str ""

theorem coerceFieldE_ok_shape {col v : String} {j : Json}
    (h : coerceFieldE col v = .ok j) : (∃ n : Int, j = .int n) ∨ j = .str v := by
  by_cases hm : measurementFields.contains col = true
  · have hrel := measurement_not_relation hm
    unfold coerceFieldE at h
    simp only [hm, if_true, hrel, Bool.false_and, Bool.false_eq_true, if_false] at h
    cases hp : pyInt v with
    | ok n =>
      rw [hp] at h
      exact Or.inl ⟨n, (Except.ok.inj h).symm⟩
    | error e =>
      rw [hp] at h
      exact Or.inr (Except.ok.inj h).symm
  · rw [Bool.not_eq_true] at hm
    rw [coerceFieldE_not_measurement v hm] at h
    by_cases hg : ((pyEndsWith col "_id" || relationNames.contains col) && pyIsdigit v) = true
    · rw [if_pos hg] at h
      rw [Bool.and_eq_true] at hg
      rw [pyInt_of_isdigit hg.2] at h
      exact Or.inl ⟨digitsVal v.data, (Except.ok.inj h).symm⟩
    · rw [if_neg hg] at h
      exact Or.inr (Except.ok.inj h).symm

/-- Every binding in a built `fields` dict traces back to a non-id mapped
column whose raw value was present and nonempty, with the stored value the
coercion of that raw value. -/
theorem buildFieldsAux_mem {data : List (String × String)} :
    ∀ (colmap : List (String × String)) (acc res : List (String × Json)),
      buildFieldsAux data colmap acc = .ok res →
      ∀ kv, kv ∈ res →
        kv ∈ acc ∨ ∃ sq, (sq, kv.1) ∈ colmap ∧ sq ≠ "id" ∧
          ∃ raw, dGetS data sq = some raw ∧ raw ≠ "" ∧ coerceFieldE kv.1 raw = .ok kv.2 := by
  intro colmap
  induction colmap with
  | nil =>
    intro acc res h kv hkv
    left
    have he := Except.ok.inj h
    rw [← he] at hkv
    exact hkv
  | cons p rest ih =>
    intro acc res h kv hkv
    unfold buildFieldsAux at h
    by_cases hid : p.1 = "id"
    · rw [if_pos hid] at h
      rcases ih acc res h kv hkv with hin | ⟨sq, hsq, hrest⟩
      · exact Or.inl hin
      · exact Or.inr ⟨sq, List.mem_cons_of_mem _ hsq, hrest⟩
    · rw [if_neg hid] at h
      cases hv : dGetS data p.1 with
      | none =>
        rw [hv] at h
        rcases ih acc res h kv hkv with hin | ⟨sq, hsq, hrest⟩
        · exact Or.inl hin
        · exact Or.inr ⟨sq, List.mem_cons_of_mem _ hsq, hrest⟩
      | some v =>
        rw [hv] at h
        dsimp only at h
        by_cases hve : v = ""
        · rw [if_pos hve] at h
          rcases ih acc res h kv hkv with hin | ⟨sq, hsq, hrest⟩
          · exact Or.inl hin
          · exact Or.inr ⟨sq, List.mem_cons_of_mem _ hsq, hrest⟩
        · rw [if_neg hve] at h
          cases hc : coerceFieldE p.2 v with
          | error e =>
            rw [hc] at h
            exact Except.noConfusion h
          | ok j =>
            rw [hc] at h
            dsimp only at h
            rcases ih _ res h kv hkv with hin | ⟨sq, hsq, hrest⟩
            · rcases mem_dSet hin with he | hin2
              · subst he
                exact Or.inr ⟨p.1, List.mem_cons_self _ _, hid, v, hv, hve, hc⟩
              · exact Or.inl hin2
            · exact Or.inr ⟨sq, List.mem_cons_of_mem _ hsq, hrest⟩

theorem processRow_ok_fields {label : String} {colmap : List (String × String)}
    {cols : List String} {r : String} {rec : Record}
    (h : processRow label colmap cols r = .ok rec) :
    buildFields colmap (cols.zip (pySplitChar '\t' r)) = .ok rec.fields := by
  unfold processRow at h
  cases hpk : computePk (dGetS (cols.zip (pySplitChar '\t' r)) "id") with
  | error e =>
    rw [hpk] at h
    exact Except.noConfusion h
  | ok pk =>
    rw [hpk] at h
    dsimp only at h
    cases hbf : buildFields colmap (cols.zip (pySplitChar '\t' r)) with
    | error e =>
      rw [hbf] at h
      exact Except.noConfusion h
    | ok flds =>
      rw [hbf] at h
      dsimp only at h
      rw [← Except.ok.inj h]

theorem congr_data {s t : String} (h : s = t) : s.data = t.data := congrArg String.data h

theorem pushZ_ne_empty (t : String) : pushZ t ≠ "" := by
  intro he
  have hd : t.data ++ ['Z'] = [] := congr_data he
  simp at hd

theorem replTZ_ne_empty {s : String} (hs : s ≠ "") : replTZ s ≠ "" := by
  intro he
  have hd : s.data.map spT = [] := congr_data he
  rw [List.map_eq_nil_iff] at hd
  exact hs (congrArg String.mk hd)

/-- The per-field normalization outputs only the input itself, a boolean,
or a `Z`-suffixed string. -/
theorem normField_output (k : String) (v : Json) :
    (normField k v).1 = v ∨ (∃ b, (normField k v).1 = .bool b) ∨
      (∃ t : String, (normField k v).1 = .str (pushZ t)) := by
  cases v with
  | null => exact Or.inl rfl
  | bool b => exact Or.inl rfl
  | int n => exact Or.inl rfl
  | arr xs => exact Or.inl rfl
  | obj kvs => exact Or.inl rfl
  | str s =>
    rw [normField_str]
    by_cases hb : boolFields.contains k = true
    · rw [if_pos hb]
      by_cases hs1 : s = "1"
      · rw [if_pos hs1]
        exact Or.inr (Or.inl ⟨true, rfl⟩)
      · rw [if_neg hs1]
        by_cases hs0 : s = "0"
        · rw [if_pos hs0]
          exact Or.inr (Or.inl ⟨false, rfl⟩)
        · rw [if_neg hs0, normDt_str]
          by_cases hse : s = ""
          · rw [if_neg (not_not_intro hse)]
            exact Or.inl rfl
          · rw [if_pos hse]
            by_cases hn : matchNaive s = true
            · rw [if_pos hn]
              exact Or.inr (Or.inr ⟨replTZ s, rfl⟩)
            · rw [if_neg hn]
              by_cases ht : matchTexact s = true
              · rw [if_pos ht]
                exact Or.inr (Or.inr ⟨s, rfl⟩)
              · rw [if_neg ht]
                exact Or.inl rfl
    · rw [if_neg hb, normDt_str]
      by_cases hse : s = ""
      · rw [if_neg (not_not_intro hse)]
        exact Or.inl rfl
      · rw [if_pos hse]
        by_cases hn : matchNaive s = true
        · rw [if_pos hn]
          exact Or.inr (Or.inr ⟨replTZ s, rfl⟩)
        · rw [if_neg hn]
          by_cases ht : matchTexact s = true
          · rw [if_pos ht]
            exact Or.inr (Or.inr ⟨s, rfl⟩)
          · rw [if_neg ht]
            exact Or.inl rfl

theorem normField_good {k : String} {v : Json} (h : goodVal v) :
    goodVal (normField k v).1 := by
  rcases normField_output k v with he | ⟨b, he⟩ | ⟨t, he⟩
  · rw [he]
    exact h
  · rw [he]
    exact ⟨fun hc => Json.noConfusion hc, fun hc => Json.noConfusion hc⟩
  · rw [he]
    refine ⟨fun hc => Json.noConfusion hc, fun hc => ?_⟩
    have : pushZ t = "" := by injection hc
    exact pushZ_ne_empty t this

theorem normFields_good {fs : List (String × Json)} (h : ∀ kv ∈ fs, goodVal kv.2) :
    ∀ kv ∈ (normFields fs).1, goodVal kv.2 := by
  induction fs with
  | nil => intro kv hkv; exact absurd hkv (List.not_mem_nil kv)
  | cons p rest ih =>
    obtain ⟨k, v⟩ := p
    intro kv hkv
    rcases List.mem_cons.mp hkv with he | hin
    · subst he
      exact normField_good (h (k, v) (List.mem_cons_self _ _))
    · exact ih (fun q hq => h q (List.mem_cons_of_mem _ hq)) kv hin

theorem fixBoolStep_good {fs : List (String × Json)} (b : String)
    (h : ∀ kv ∈ fs, goodVal kv.2) : ∀ kv ∈ fixBoolStep fs b, goodVal kv.2 := by
  unfold fixBoolStep
  cases hg : dGet fs b with
  | none => exact h
  | some v =>
    cases v with
    | str s =>
      intro kv hkv
      rcases mem_dSet hkv with he | hin
      · subst he
        exact ⟨fun hc => Json.noConfusion hc, fun hc => Json.noConfusion hc⟩
      · exact h kv hin
    | null => exact h
    | bool c => exact h
    | int m => exact h
    | arr xs => exact h
    | obj kvs => exact h

theorem fixBools_good {fs : List (String × Json)} (h : ∀ kv ∈ fs, goodVal kv.2) :
    ∀ kv ∈ fixBools fs, goodVal kv.2 := by
  show ∀ kv ∈ fixBoolStep (fixBoolStep (fixBoolStep fs "is_superuser") "is_staff") "is_active",
    goodVal kv.2
  exact fixBoolStep_good _ (fixBoolStep_good _ (fixBoolStep_good _ h))

theorem fixDtStep_good {fs : List (String × Json)} (d : String)
    (h : ∀ kv ∈ fs, goodVal kv.2) : ∀ kv ∈ fixDtStep fs d, goodVal kv.2 := by
  unfold fixDtStep
  cases hg : dGet fs d with
  | none => exact h
  | some v =>
    cases v with
    | str s =>
      dsimp only
      by_cases hse : s = ""
      · rw [if_neg (not_not_intro hse)]
        exact h
      · rw [if_pos hse]
        split
        · intro kv hkv
          rcases mem_dSet hkv with he | hin
          · subst he
            refine ⟨fun hc => Json.noConfusion hc, fun hc => ?_⟩
            have hz : (if (!(replTZ s).data.contains 'Z'
                && (!(replTZ s).data.contains '+' && !((replTZ s).data.drop 11).contains '-')) = true
                then pushZ (replTZ s) else replTZ s) = "" := by injection hc
            by_cases hcnd : (!(replTZ s).data.contains 'Z'
                && (!(replTZ s).data.contains '+' && !((replTZ s).data.drop 11).contains '-')) = true
            · rw [if_pos hcnd] at hz
              exact pushZ_ne_empty _ hz
            · rw [if_neg hcnd] at hz
              exact replTZ_ne_empty hse hz
          · exact h kv hin
        · exact h
    | null => exact h
    | bool c => exact h
    | int m => exact h
    | arr xs => exact h
    | obj kvs => exact h

theorem fixDts_good {fs : List (String × Json)} (h : ∀ kv ∈ fs, goodVal kv.2) :
    ∀ kv ∈ fixDts fs, goodVal kv.2 := by
  show ∀ kv ∈ fixDtStep (fixDtStep fs "last_login") "date_joined", goodVal kv.2
  exact fixDtStep_good _ (fixDtStep_good _ h)

theorem fixGroups_good {fs : List (String × Json)} (h : ∀ kv ∈ fs, goodVal kv.2) :
    ∀ kv ∈ fixGroups fs, goodVal kv.2 := by
  show ∀ kv ∈ (if !(deriveG2 fs (deriveG1 fs (groupsListOf fs))).isEmpty
      then dSet fs "groups" (.arr (deriveG2 fs (deriveG1 fs (groupsListOf fs)))) else fs),
    goodVal kv.2
  split
  · intro kv hkv
    rcases mem_dSet hkv with he | hin
    · subst he
      exact ⟨fun hc => Json.noConfusion hc, fun hc => Json.noConfusion hc⟩
    · exact h kv hin
  · exact h

theorem fixFields_good {fs : List (String × Json)} (h : ∀ kv ∈ fs, goodVal kv.2) :
    ∀ kv ∈ fixFields fs, goodVal kv.2 :=
  fixGroups_good (fixDts_good (fixBools_good h))

/-- C7: a record emitted by the extraction pipeline has a `fields` key
only for a non-id mapped column whose raw cell was present and nonempty
(absent or empty raw values leave no key, and nothing is stored as null),
and both repair passes preserve the invariant that no stored field value
is null or the empty string. -/
theorem C7_absence_not_null :
    (∀ (label : String) (colmap : List (String × String)) (cols : List String)
       (r : String) (rec : Record), processRow label colmap cols r = .ok rec →
      ∀ kv ∈ rec.fields, ∃ sq, (sq, kv.1) ∈ colmap ∧ sq ≠ "id" ∧
        ∃ raw, dGetS (cols.zip (pySplitChar '\t' r)) sq = some raw ∧ raw ≠ "") ∧
    (∀ (label : String) (colmap : List (String × String)) (cols : List String)
       (r : String) (rec : Record), processRow label colmap cols r = .ok rec →
      ∀ kv ∈ rec.fields, goodVal kv.2) ∧
    (∀ fs : List (String × Json), (∀ kv ∈ fs, goodVal kv.2) →
      ∀ kv ∈ (normFields fs).1, goodVal kv.2) ∧
    (∀ fs : List (String × Json), (∀ kv ∈ fs, goodVal kv.2) →
      ∀ kv ∈ fixFields fs, goodVal kv.2) := by
  refine ⟨?_, ?_, fun fs h => normFields_good h, fun fs h => fixFields_good h⟩
  · intro label colmap cols r rec h kv hkv
    have hb := processRow_ok_fields h
    rcases buildFieldsAux_mem colmap [] rec.fields hb kv hkv with hin | ⟨sq, hsq, hid, raw, hraw, hne, _⟩
    · exact absurd hin (List.not_mem_nil kv)
    · exact ⟨sq, hsq, hid, raw, hraw, hne⟩
  · intro label colmap cols r rec h kv hkv
    have hb := processRow_ok_fields h
    rcases buildFieldsAux_mem colmap [] rec.fields hb kv hkv with hin | ⟨sq, hsq, hid, raw, hraw, hne, hco⟩
    · exact absurd hin (List.not_mem_nil kv)
    · rcases coerceFieldE_ok_shape hco with ⟨n, hn⟩ | hs
      · rw [hn]
        exact ⟨fun hc => Json.noConfusion hc, fun hc => Json.noConfusion hc⟩
      · rw [hs]
        refine ⟨fun hc => Json.noConfusion hc, fun hc => ?_⟩
        have : raw = "" := by injection hc
        exact hne this

/-- Witness for C7 at concrete inputs: a team row with an absent
`initial_seed`/`origin_id` raw value, and the two passes on concrete
fields. -/
theorem C7_witness :
    (∃ sq, (sq, "name") ∈ [("id", "pk"), ("name", "name"),
        ("initial_seed", "initial_seed"), ("origin_id", "origin")] ∧ sq ≠ "id" ∧
      ∃ raw, dGetS (["id", "name"].zip (pySplitChar '\t' "7\tAlpha")) sq = some raw ∧ raw ≠ "") ∧
    goodVal (Json.str "Alpha") ∧
    goodVal (Json.str "2026-07-01T10:00:00Z") ∧
    goodVal (Json.bool true) := by
  refine ⟨?_, ?_, ?_, ?_⟩
  · exact C7_absence_not_null.1 "games.team"
      [("id", "pk"), ("name", "name"), ("initial_seed", "initial_seed"), ("origin_id", "origin")]
      ["id", "name"] "7\tAlpha" ⟨"games.team", some 7, [("name", .str "Alpha")]⟩ rfl
      ("name", .str "Alpha") (List.Mem.head _)
  · exact C7_absence_not_null.2.1 "games.team"
      [("id", "pk"), ("name", "name"), ("initial_seed", "initial_seed"), ("origin_id", "origin")]
      ["id", "name"] "7\tAlpha" ⟨"games.team", some 7, [("name", .str "Alpha")]⟩ rfl
      ("name", .str "Alpha") (List.Mem.head _)
  · exact C7_absence_not_null.2.2.1 [("start_time", .str "2026-07-01 10:00:00")]
      (by simp [goodVal]) ("start_time", .str "2026-07-01T10:00:00Z") (List.Mem.head _)
  · exact C7_absence_not_null.2.2.2 [("is_superuser", .str "1")]
      (by simp [goodVal]) ("is_superuser", .bool true) (List.Mem.head _)

example : pyInt "123" = .ok 123 := rfl
example : pyInt " -42 " = .ok (-42) := rfl
example : pyInt "abc" = .error () := rfl
example : pyInt "" = .error () := rfl
example : pyIsdigit "007" = true := by decide
example : pyIsdigit "-1" = false := by decide
